import Mathlib

/-!
Shallow embedding of the dexrs DEX-file reader (header/verifier, id-table
accessors, class-data iterators, encoded values, debug-info positions,
MUTF-8 codec, catch-handler iterator, instruction decoder) together with
theorems settling the specification claims C1-C10.

Byte strings are modelled as `List Nat` whose elements are byte values;
u16 code-unit streams as `List Nat` of 16-bit values.  Machine integers
are `Nat`/`Int` with explicit masking where the source wraps.  Fallible
Rust functions returning `Result` are modelled with `Except DexErr`;
a Rust panic that is reachable from library input is modelled by the
distinguished error `DexErr.panicked`.
-/

namespace Dexrs

/-- Closed error taxonomy; mirrors the `DexError` variants the embedded
functions can produce.  Payloads are kept numeric. -/
inductive DexErr : Type where
  | truncatedFile : DexErr
  | badFileMagic : DexErr
  | unknownDexVersion : DexErr
  | fileSizeAtLeast (actual expected : Nat) : DexErr
  | fileSizeAtMost (actual expected : Nat) : DexErr
  | badHeaderSize (size expected : Nat) : DexErr
  | unexpectedEndianess (tag : Nat) : DexErr
  | badChecksum (actual expected : Nat) : DexErr
  | badOffsetNoSize (offset : Nat) : DexErr
  | badOffsetInHeader (offset headerSize : Nat) : DexErr
  | badOffsetTooLarge (offset size : Nat) : DexErr
  | badSection (offset size : Nat) : DexErr
  | dexFileError : DexErr
  | dexIndexError (index max : Nat) : DexErr
  | varIntError : DexErr
  | badEncodedIndex (index nextIndex : Nat) : DexErr
  | emptyEncodedValue : DexErr
  | badEncodedValueType (valueType : Nat) : DexErr
  | badEncodedValueSize (valueType size max : Nat) : DexErr
  | invalidEncodedValue (valueType offset size : Nat) : DexErr
  | badEncodedArrayLength (valueType size offset : Nat) : DexErr
  | operandAccessError (opcode : Nat) : DexErr
  | invalidArgCount (opcode count : Nat) : DexErr
  | invalidArgRange (opcode start stop : Nat) : DexErr
  | badInstruction (opcode offset size : Nat) : DexErr
  | badInstructionOffset (opcode offset size : Nat) : DexErr
  | outOfFuel : DexErr
  | panicked : DexErr
deriving DecidableEq, Repr

/-- Equality of embedded results is decidable componentwise. -/
instance instDecEqExcept {ε α : Type} [DecidableEq ε] [DecidableEq α] :
    DecidableEq (Except ε α)
  | .error a, .error b =>
    decidable_of_iff (a = b) ⟨fun h => h ▸ rfl, fun h => by injection h⟩
  | .error _, .ok _ => isFalse fun h => by injection h
  | .ok _, .error _ => isFalse fun h => by injection h
  | .ok a, .ok b =>
    decidable_of_iff (a = b) ⟨fun h => h ▸ rfl, fun h => by injection h⟩

/-- Two's-complement reinterpretation of a 32-bit pattern as a signed value. -/
def int32Of (n : Nat) : Int :=
  if n % 2 ^ 32 < 2 ^ 31 then ((n % 2 ^ 32 : Nat) : Int)
  else ((n % 2 ^ 32 : Nat) : Int) - 2 ^ 32

/-- Wrap an integer into i32 range, two's-complement style (release-mode
Rust overflow semantics). -/
def wrapI32 (z : Int) : Int :=
  ((z + 2 ^ 31) % 2 ^ 32 + 2 ^ 32) % 2 ^ 32 - 2 ^ 31

/-- Truncating cast to i8 (Rust `as i8`). -/
def toI8 (z : Int) : Int :=
  let m := ((z % 2 ^ 8) + 2 ^ 8) % 2 ^ 8
  if m < 2 ^ 7 then m else m - 2 ^ 8

/-- Truncating cast to i16 (Rust `as i16`). -/
def toI16 (z : Int) : Int :=
  let m := ((z % 2 ^ 16) + 2 ^ 16) % 2 ^ 16
  if m < 2 ^ 15 then m else m - 2 ^ 16

/-- Little-endian u16 read from a byte list (reads past the end see 0;
the embedded callers only read in bounds). -/
def readU16 (b : List Nat) (off : Nat) : Nat :=
  b.getD off 0 + b.getD (off + 1) 0 * 2 ^ 8

/-- Little-endian u32 read from a byte list. -/
def readU32 (b : List Nat) (off : Nat) : Nat :=
  b.getD off 0 + b.getD (off + 1) 0 * 2 ^ 8 +
    b.getD (off + 2) 0 * 2 ^ 16 + b.getD (off + 3) 0 * 2 ^ 24

/-- Little-endian u32 serialization, 4 bytes. -/
def le32 (n : Nat) : List Nat :=
  [n % 2 ^ 8, n / 2 ^ 8 % 2 ^ 8, n / 2 ^ 16 % 2 ^ 8, n / 2 ^ 24 % 2 ^ 8]

/-!
## LEB128 codec

Modelled from the spec: the source delegates unsigned LEB128 decoding to
the external `varint_simd` crate and calls a `decode_sleb128` that is not
present under `src/`; section 4.2 of the spec fixes the contract: decode
unsigned to u32 / signed to i32, return (value, bytes consumed), fail on
truncated or over-long encodings and on magnitudes exceeding the target
width.
-/

/-- Modelled from the spec: core unsigned LEB128 loop.  `fuel` bounds the
byte count at the 5 bytes a u32 may occupy; running out means the
encoding is over-long. -/
def ulebDecodeCore : List Nat → Nat → Option (Nat × Nat)
  | _, 0 => none
  | [], _ + 1 => none
  | b :: rest, fuel + 1 =>
    if b % 2 ^ 8 < 2 ^ 7 then some (b % 2 ^ 8, 1)
    else
      match ulebDecodeCore rest fuel with
      | none => none
      | some (v, k) => some (b % 2 ^ 7 + v * 2 ^ 7, k + 1)

/-- Modelled from the spec: decode an unsigned LEB128 into a u32,
returning the value and the number of bytes consumed. -/
def ulebDecode (data : List Nat) : Option (Nat × Nat) :=
  match ulebDecodeCore data 5 with
  | none => none
  | some (v, k) => if v < 2 ^ 32 then some (v, k) else none

/-- Modelled from the spec: core signed LEB128 loop; the final (low) byte
sign-extends its 7-bit group. -/
def slebDecodeCore : List Nat → Nat → Option (Int × Nat)
  | _, 0 => none
  | [], _ + 1 => none
  | b :: rest, fuel + 1 =>
    if b % 2 ^ 8 < 2 ^ 7 then
      some (if b % 2 ^ 8 < 2 ^ 6 then ((b % 2 ^ 8 : Nat) : Int)
            else ((b % 2 ^ 8 : Nat) : Int) - 2 ^ 7, 1)
    else
      match slebDecodeCore rest fuel with
      | none => none
      | some (v, k) => some (((b % 2 ^ 7 : Nat) : Int) + v * 2 ^ 7, k + 1)

/-- Modelled from the spec: decode a signed LEB128 into an i32,
returning the value and the number of bytes consumed. -/
def slebDecode (data : List Nat) : Option (Int × Nat) :=
  match slebDecodeCore data 5 with
  | none => none
  | some (v, k) => if -(2 ^ 31) ≤ v ∧ v < 2 ^ 31 then some (v, k) else none

/-- Modelled from the spec: `decode_leb128p1` — unsigned decode minus one. -/
def ulebP1Decode (data : List Nat) : Option (Int × Nat) :=
  match ulebDecode data with
  | none => none
  | some (v, k) => some ((v : Int) - 1, k)

/-- `decode_leb128_off`: decode at a cursor within `data` and advance it.
Slicing `data[pos..]` with `pos > len` is a Rust panic, modelled as
failure of the same shape as a decode error would produce after an
in-bounds empty slice; the embedded callers keep the cursor in bounds. -/
def ulebDecodeOff (data : List Nat) (pos : Nat) : Option (Nat × Nat) :=
  match ulebDecode (data.drop pos) with
  | none => none
  | some (v, k) => some (v, pos + k)

/-- `decode_leb128p1_off` on a cursor. -/
def ulebP1DecodeOff (data : List Nat) (pos : Nat) : Option (Int × Nat) :=
  match ulebP1Decode (data.drop pos) with
  | none => none
  | some (v, k) => some (v, pos + k)

/-- Minimal unsigned LEB128 encoding, worker: `fuel` bounds the group
count (5 covers every value below `2^35`, so the whole u32 range). -/
def ulebEncodeCore : Nat → Nat → List Nat
  | 0, _ => []
  | fuel + 1, n =>
    if n < 2 ^ 7 then [n]
    else (n % 2 ^ 7 + 2 ^ 7) :: ulebEncodeCore fuel (n / 2 ^ 7)

/-- Minimal unsigned LEB128 encoding of a u32 (used to state round-trip
claims). -/
def ulebEncode (n : Nat) : List Nat :=
  ulebEncodeCore 5 n

/-!
## Adler-32

Modelled from the spec: the source calls the external `adler32` crate;
the spec says the verifier "recomputes the checksum" over the file body.
-/

/-- Modelled from the spec: the Adler-32 rolling checksum. -/
def adler32 (data : List Nat) : Nat :=
  let p := data.foldl (fun (st : Nat × Nat) b =>
    let a := (st.1 + b) % 65521
    (a, (st.2 + a) % 65521)) (1, 0)
  p.2 * 2 ^ 16 + p.1

/-!
## Header and DexFile (file/header.rs, file/mod.rs, file/verifier.rs)
-/

/-- The fixed 112-byte DEX header (`Header` in header.rs); every
multi-byte field is little-endian. -/
structure HeaderM : Type where
  magic : List Nat
  checksum : Nat
  signature : List Nat
  file_size : Nat
  header_size : Nat
  endian_tag : Nat
  link_size : Nat
  link_off : Nat
  map_off : Nat
  string_ids_size : Nat
  string_ids_off : Nat
  type_ids_size : Nat
  type_ids_off : Nat
  proto_ids_size : Nat
  proto_ids_off : Nat
  field_ids_size : Nat
  field_ids_off : Nat
  method_ids_size : Nat
  method_ids_off : Nat
  class_defs_size : Nat
  class_defs_off : Nat
  data_size : Nat
  data_off : Nat
deriving DecidableEq, Repr

/-- `Header::from_bytes`: reinterpret the first 112 bytes at their fixed
field offsets. -/
def parseHeader (b : List Nat) : HeaderM where
  magic := (b.take 8)
  checksum := readU32 b 8
  signature := ((b.drop 12).take 20)
  file_size := readU32 b 32
  header_size := readU32 b 36
  endian_tag := readU32 b 40
  link_size := readU32 b 44
  link_off := readU32 b 48
  map_off := readU32 b 52
  string_ids_size := readU32 b 56
  string_ids_off := readU32 b 60
  type_ids_size := readU32 b 64
  type_ids_off := readU32 b 68
  proto_ids_size := readU32 b 72
  proto_ids_off := readU32 b 76
  field_ids_size := readU32 b 80
  field_ids_off := readU32 b 84
  method_ids_size := readU32 b 88
  method_ids_off := readU32 b 92
  class_defs_size := readU32 b 96
  class_defs_off := readU32 b 100
  data_size := readU32 b 104
  data_off := readU32 b 108

/-- `Header::get_version`: parse the three ASCII digits of `magic[4..7]`
as a decimal number; any non-digit makes the parse fail and yields the
`unwrap_or_default` value 0. -/
def HeaderM.getVersion (h : HeaderM) : Nat :=
  let d0 := h.magic.getD 4 0
  let d1 := h.magic.getD 5 0
  let d2 := h.magic.getD 6 0
  if 48 ≤ d0 ∧ d0 ≤ 57 ∧ 48 ≤ d1 ∧ d1 ≤ 57 ∧ 48 ≤ d2 ∧ d2 ≤ 57 then
    (d0 - 48) * 100 + (d1 - 48) * 10 + (d2 - 48)
  else 0

/-- `DEX_MAGIC` comparison: `&magic[..4] == b"dex\n"`. -/
def HeaderM.isMagicValid (h : HeaderM) : Bool :=
  h.magic.take 4 = [0x64, 0x65, 0x78, 0x0A]

/-- `DEX_MAGIC_VERSIONS` membership of `magic[4..]`. -/
def HeaderM.isVersionValid (h : HeaderM) : Bool :=
  let v := h.magic.drop 4
  v = [0x30, 0x33, 0x35, 0] ∨ v = [0x30, 0x33, 0x37, 0] ∨
    v = [0x30, 0x33, 0x38, 0] ∨ v = [0x30, 0x33, 0x39, 0] ∨
    v = [0x30, 0x34, 0x30, 0] ∨ v = [0x30, 0x34, 0x31, 0]

/-- `DexFile::get_section::<T>`: empty on `len == 0`, empty whenever the
section (in bytes, `len * esize`) does not fit strictly inside the file,
otherwise the `len` raw elements.  Alignment of the backing buffer (a
memory-layout property) is not modelled. -/
def getSection (base : List Nat) (offset len esize : Nat) : List (List Nat) :=
  if len = 0 then []
  else if offset + len * esize ≥ base.length ∨ offset ≥ base.length then []
  else (List.range len).map fun i => ((base.drop (offset + i * esize)).take esize)

/-- The parsed `DexFile` facade: the backing bytes, the header and the six
id-table slices the claims range over (`method_handles`/`call_site_ids`/
`hiddenapi_data` stay empty, see `initSectionsFromMaplist`). -/
structure DexFileM : Type where
  mmap : List Nat
  header : HeaderM
  stringIds : List (List Nat)
  typeIds : List (List Nat)
  fieldIds : List (List Nat)
  protoIds : List (List Nat)
  methodIds : List (List Nat)
  classDefs : List (List Nat)
deriving DecidableEq, Repr

/-- The struct literal built inside `DexFile::from_raw_parts`; entry byte
widths: StringId 4, TypeId 4, FieldId 8, ProtoId 12, MethodId 8,
ClassDef 32. -/
def mkDexFile (b : List Nat) : DexFileM :=
  let h := parseHeader b
  { mmap := b
    header := h
    stringIds := getSection b h.string_ids_off h.string_ids_size 4
    typeIds := getSection b h.type_ids_off h.type_ids_size 4
    fieldIds := getSection b h.field_ids_off h.field_ids_size 8
    protoIds := getSection b h.proto_ids_off h.proto_ids_size 12
    methodIds := getSection b h.method_ids_off h.method_ids_size 8
    classDefs := getSection b h.class_defs_off h.class_defs_size 32 }

/-- `DexFile::maplist_available` with the buffer-alignment test (memory
layout) modelled as always aligned: the function returns true exactly
when `map_off != 0` and the 4-byte map count does NOT fit in the file —
the bounds test is inverted in the source. -/
def maplistAvailable (d : DexFileM) : Bool :=
  if d.header.map_off = 0 then false
  else decide (d.header.map_off + 4 > d.mmap.length)

/-- `DexFile::init_sections_from_maplist`.  The first guard requires
`maplistAvailable` (so `map_off + 4 > len`), the second returns when
`map_off + 4 >= len`; together they make the rest of the body
unreachable, so the function never changes the six id tables and the
`method_handles`/`call_site_ids`/`hiddenapi_data` fields (not part of
any claim) are never populated. -/
def initSectionsFromMaplist (d : DexFileM) : DexFileM :=
  if !maplistAvailable d then d
  else if d.header.map_off + 4 ≥ d.mmap.length then d
  else d

/-- `DexFile::from_raw_parts`: reject byte strings shorter than the
112-byte header, otherwise build the facade and run the map-list
initialisation. -/
def fromRawParts (b : List Nat) : Except DexErr DexFileM :=
  if b.length < 112 then .error .truncatedFile
  else .ok (initSectionsFromMaplist (mkDexFile b))

/-- `DexFile::expected_header_size`: 112 below version 41, 120 from 41
on, 0 for an unparsable version. -/
def DexFileM.expectedHeaderSize (d : DexFileM) : Nat :=
  let version := d.header.getVersion
  if version ≠ 0 then (if version < 41 then 112 else 120) else 0

/-- `DexFile::init`: the open-time semantic checks (no verifier). -/
def initDex (d : DexFileM) : Except DexErr Unit :=
  if d.mmap.length < 112 then .error .dexFileError
  else if !d.header.isMagicValid then .error .dexFileError
  else if !d.header.isVersionValid then .error .dexFileError
  else if d.expectedHeaderSize < d.header.header_size then .error .dexFileError
  else if d.mmap.length < d.header.file_size then .error .dexFileError
  else .ok ()

/-- `VerifyPreset` of verifier.rs. -/
inductive VerifyPreset : Type where
  | noVerify : VerifyPreset
  | all : VerifyPreset
  | checksumOnly : VerifyPreset
deriving DecidableEq, Repr

/-- `DexFile::calculate_checksum`: Adler-32 over `mmap[12..mmap.len()]`. -/
def calculateChecksum (d : DexFileM) : Nat :=
  adler32 (d.mmap.drop 12)

/-- `check_valid_offset_and_size` of verifier.rs.  `file_size` is the
container length; the header-offset floor is the constant
`size_of::<Header>() = 112`, and `size` is used unscaled. -/
def checkValidOffsetAndSize (d : DexFileM) (offset size : Nat) :
    Except DexErr Unit :=
  if size = 0 then
    if offset ≠ 0 then .error (.badOffsetNoSize offset)
    else .ok ()
  else
    if offset < 112 then .error (.badOffsetInHeader offset 112)
    else if offset > d.mmap.length then .error (.badOffsetTooLarge offset d.mmap.length)
    else if d.mmap.length - offset < size then
      .error (.badSection (offset + size) d.mmap.length)
    else .ok ()

/-- The local `header_size` of `check_header`: the version-appropriate
struct size (`size_of::<HeaderV41>() = 120` from version 41 on, else
`size_of::<Header>() = 112`). -/
def verifyHeaderSize (d : DexFileM) : Nat :=
  if d.header.getVersion ≥ 41 then 120 else 112

/-- The preset-dependent Adler-32 comparison inside `check_header`:
`All` and `ChecksumOnly` share the same arm of the `match`. -/
def checksumCheck (d : DexFileM) (preset : VerifyPreset) : Except DexErr Unit :=
  match preset with
  | .all | .checksumOnly =>
    if calculateChecksum d ≠ d.header.checksum then
      .error (.badChecksum (calculateChecksum d) d.header.checksum)
    else .ok ()
  | .noVerify => .ok ()

/-- The sequence of `?`-propagated unit checks. -/
def seqChecks : List (Except DexErr Unit) → Except DexErr Unit
  | [] => .ok ()
  | c :: rest =>
    match c with
    | .error e => .error e
    | .ok () => seqChecks rest

/-- `check_header` of verifier.rs: the structural checks, the optional
Adler-32 comparison, then the eight (offset, size) pair checks (the map
pair is checked as `(map_off, size_of::<u32>() = 4)`). -/
def checkHeader (d : DexFileM) (preset : VerifyPreset) : Except DexErr Unit :=
  if d.mmap.length < 112 then .error .truncatedFile
  else if !d.header.isMagicValid then .error .badFileMagic
  else if !d.header.isVersionValid then .error .unknownDexVersion
  else
    if d.header.file_size < verifyHeaderSize d then
      .error (.fileSizeAtLeast d.header.file_size (verifyHeaderSize d))
    else if d.header.file_size > d.mmap.length then
      .error (.fileSizeAtMost d.header.file_size d.mmap.length)
    else if d.header.header_size ≠ verifyHeaderSize d then
      .error (.badHeaderSize d.header.header_size (verifyHeaderSize d))
    else if d.header.endian_tag ≠ 0x12345678 then
      .error (.unexpectedEndianess d.header.endian_tag)
    else
      match checksumCheck d preset with
      | .error e => .error e
      | .ok () =>
        seqChecks
          [checkValidOffsetAndSize d d.header.link_off d.header.link_size,
           checkValidOffsetAndSize d d.header.map_off 4,
           checkValidOffsetAndSize d d.header.string_ids_off d.header.string_ids_size,
           checkValidOffsetAndSize d d.header.type_ids_off d.header.type_ids_size,
           checkValidOffsetAndSize d d.header.proto_ids_off d.header.proto_ids_size,
           checkValidOffsetAndSize d d.header.field_ids_off d.header.field_ids_size,
           checkValidOffsetAndSize d d.header.method_ids_off d.header.method_ids_size,
           checkValidOffsetAndSize d d.header.class_defs_off d.header.class_defs_size,
           checkValidOffsetAndSize d d.header.data_off d.header.data_size]

/-- `DexFile::verify`: delegates to `check_header`. -/
def verifyDex (d : DexFileM) (preset : VerifyPreset) : Except DexErr Unit :=
  checkHeader d preset

/-- `DexFile::open`: parse, run `init`, then verify unless the preset is
`None`. -/
def openDex (b : List Nat) (preset : VerifyPreset) : Except DexErr DexFileM :=
  match fromRawParts b with
  | .error e => .error e
  | .ok d =>
    match initDex d with
    | .error e => .error e
    | .ok () =>
      match (match preset with
        | .noVerify => .ok ()
        | p => verifyDex d p : Except DexErr Unit) with
      | .error e => .error e
      | .ok () => .ok d

/-- `get_string_id` (the `check_lt_result!` + index pattern shared by all
six id-table accessors). -/
def DexFileM.getStringId (d : DexFileM) (idx : Nat) : Except DexErr (List Nat) :=
  if idx ≥ d.stringIds.length then .error (.dexIndexError idx d.stringIds.length)
  else .ok (d.stringIds.getD idx [])

/-- `get_type_id`. -/
def DexFileM.getTypeId (d : DexFileM) (idx : Nat) : Except DexErr (List Nat) :=
  if idx ≥ d.typeIds.length then .error (.dexIndexError idx d.typeIds.length)
  else .ok (d.typeIds.getD idx [])

/-- `get_field_id`. -/
def DexFileM.getFieldId (d : DexFileM) (idx : Nat) : Except DexErr (List Nat) :=
  if idx ≥ d.fieldIds.length then .error (.dexIndexError idx d.fieldIds.length)
  else .ok (d.fieldIds.getD idx [])

/-- `get_proto_id`. -/
def DexFileM.getProtoId (d : DexFileM) (idx : Nat) : Except DexErr (List Nat) :=
  if idx ≥ d.protoIds.length then .error (.dexIndexError idx d.protoIds.length)
  else .ok (d.protoIds.getD idx [])

/-- `get_method_id`. -/
def DexFileM.getMethodId (d : DexFileM) (idx : Nat) : Except DexErr (List Nat) :=
  if idx ≥ d.methodIds.length then .error (.dexIndexError idx d.methodIds.length)
  else .ok (d.methodIds.getD idx [])

/-- `get_class_def`. -/
def DexFileM.getClassDef (d : DexFileM) (idx : Nat) : Except DexErr (List Nat) :=
  if idx ≥ d.classDefs.length then .error (.dexIndexError idx d.classDefs.length)
  else .ok (d.classDefs.getD idx [])

/-- `num_string_ids` returns the header count (not the slice length). -/
def DexFileM.numStringIds (d : DexFileM) : Nat := d.header.string_ids_size

/-- `num_type_ids`. -/
def DexFileM.numTypeIds (d : DexFileM) : Nat := d.header.type_ids_size

/-- `num_field_ids`. -/
def DexFileM.numFieldIds (d : DexFileM) : Nat := d.header.field_ids_size

/-- `num_proto_ids`. -/
def DexFileM.numProtoIds (d : DexFileM) : Nat := d.header.proto_ids_size

/-- `num_method_ids`. -/
def DexFileM.numMethodIds (d : DexFileM) : Nat := d.header.method_ids_size

/-- `num_class_defs`. -/
def DexFileM.numClassDefs (d : DexFileM) : Nat := d.header.class_defs_size

/-- Index-safety contract of one id table: `get` succeeds strictly below
the loaded slice length and fails with `DexIndexError` (never a panic)
from there on. -/
def tableSafe (tbl : List (List Nat)) (getf : Nat → Except DexErr (List Nat)) : Prop :=
  ∀ i : Nat, (i < tbl.length → ∃ v, getf i = .ok v) ∧
    (tbl.length ≤ i → getf i = .error (.dexIndexError i tbl.length))

/-- A 112-byte input accepted by `open(B, Verify=None)` whose header
claims one string id at an offset far outside the file: the loaded
string-id slice is empty while `num_string_ids()` is 1. -/
def exFileC1 : List Nat :=
  [0x64, 0x65, 0x78, 0x0A, 0x30, 0x33, 0x35, 0x00] ++ le32 0 ++
    List.replicate 20 0 ++ le32 112 ++ le32 112 ++ le32 0x12345678 ++
    le32 0 ++ le32 0 ++ le32 0 ++ le32 1 ++ le32 0xFFFF0000 ++
    List.replicate 48 0

/-- Body (bytes 12 and up) of a 116-byte file whose string-ids pair has
`offset 114, size 1`: `114 + 1 <= 116` passes the verifier, while the
entry-width-scaled bound `114 + 1*4 <= 116` of the claim fails. -/
def exTailC3 : List Nat :=
  List.replicate 20 0 ++ le32 116 ++ le32 112 ++ le32 0x12345678 ++
    le32 0 ++ le32 0 ++ le32 112 ++ le32 1 ++ le32 114 ++
    List.replicate 40 0 ++ le32 0 ++ le32 0 ++ List.replicate 4 0

/-- The full 116-byte file of `exTailC3` with a correct Adler-32 checksum
field. -/
def exFileC3 : List Nat :=
  [0x64, 0x65, 0x78, 0x0A, 0x30, 0x33, 0x35, 0x00] ++
    le32 (adler32 exTailC3) ++ exTailC3

/-- One (offset, size) header pair as `check_valid_offset_and_size`
actually constrains it: absent (both zero) or inside
`[112, container_len]` with the UNSCALED size fitting after the offset. -/
def pairInv (fileSize offset size : Nat) : Prop :=
  if size = 0 then offset = 0
  else 112 ≤ offset ∧ offset + size ≤ fileSize

/-- Everything `check_header` with preset `All` enforces, as one
conjunction: structural header facts, the Adler-32 comparison against
the whole remaining container, and the eight pair invariants (the map
pair is checked as (map_off, 4)). -/
def headerInvariantsAll (d : DexFileM) : Prop :=
  112 ≤ d.mmap.length ∧
  d.header.isMagicValid = true ∧
  d.header.isVersionValid = true ∧
  verifyHeaderSize d ≤ d.header.file_size ∧
  d.header.file_size ≤ d.mmap.length ∧
  d.header.header_size = verifyHeaderSize d ∧
  d.header.endian_tag = 0x12345678 ∧
  calculateChecksum d = d.header.checksum ∧
  pairInv d.mmap.length d.header.link_off d.header.link_size ∧
  pairInv d.mmap.length d.header.map_off 4 ∧
  pairInv d.mmap.length d.header.string_ids_off d.header.string_ids_size ∧
  pairInv d.mmap.length d.header.type_ids_off d.header.type_ids_size ∧
  pairInv d.mmap.length d.header.proto_ids_off d.header.proto_ids_size ∧
  pairInv d.mmap.length d.header.field_ids_off d.header.field_ids_size ∧
  pairInv d.mmap.length d.header.method_ids_off d.header.method_ids_size ∧
  pairInv d.mmap.length d.header.class_defs_off d.header.class_defs_size ∧
  pairInv d.mmap.length d.header.data_off d.header.data_size

/-!
## Class-data accessor (file/class_accessor.rs)
-/

/-- A decoded encoded_field (`Field` in class_accessor.rs). -/
structure FieldM : Type where
  index : Nat
  accessFlags : Nat
  isStatic : Bool
deriving DecidableEq, Repr

/-- `Field::default()`. -/
def FieldM.dflt : FieldM := { index := 0, accessFlags := 0, isStatic := true }

/-- `Field::read`: add the next ULEB128 delta to the running index
(guarding the u32 overflow with `BadEncodedIndex`), then read the access
flags. -/
def FieldM.read (f : FieldM) (data : List Nat) (pos : Nat) :
    Except DexErr (FieldM × Nat) := do
  let target := f.index
  match ulebDecodeOff data pos with
  | none => throw .varIntError
  | some (value, pos1) =>
    if target + value > 4294967295 then throw (.badEncodedIndex f.index value)
    else
      match ulebDecodeOff data pos1 with
      | none => throw .varIntError
      | some (af, pos2) =>
        pure ({ f with index := f.index + value, accessFlags := af }, pos2)

/-- `Field::next_section`: flips the section flag only — the running
index is NOT reset. -/
def FieldM.nextSection (f : FieldM) : FieldM := { f with isStatic := false }

/-- A decoded encoded_method (`Method` in class_accessor.rs). -/
structure MethodM : Type where
  index : Nat
  accessFlags : Nat
  codeOffset : Nat
  isStaticOrDirect : Bool
deriving DecidableEq, Repr

/-- `Method::default()`. -/
def MethodM.dflt : MethodM :=
  { index := 0, accessFlags := 0, codeOffset := 0, isStaticOrDirect := false }

/-- `Method::read`: delta index (overflow-guarded), access flags, code
offset. -/
def MethodM.read (m : MethodM) (data : List Nat) (pos : Nat) :
    Except DexErr (MethodM × Nat) := do
  let target := m.index
  match ulebDecodeOff data pos with
  | none => throw .varIntError
  | some (value, pos1) =>
    if target + value > 4294967295 then throw (.badEncodedIndex m.index value)
    else
      match ulebDecodeOff data pos1 with
      | none => throw .varIntError
      | some (af, pos2) =>
        match ulebDecodeOff data pos2 with
        | none => throw .varIntError
        | some (co, pos3) =>
          pure ({ m with index := m.index + value, accessFlags := af,
                         codeOffset := co }, pos3)

/-- `Method::next_section`: flips the section flag only — the running
index is NOT reset. -/
def MethodM.nextSection (m : MethodM) : MethodM := { m with isStaticOrDirect := true }

/-- `ClassAccessor`: the class_data slice, the four member counts and the
cursor position after them. -/
structure ClassAccessorM : Type where
  classData : List Nat
  numStaticFields : Nat
  numInstanceFields : Nat
  numDirectMethods : Nat
  numVirtualMethods : Nat
  staticFieldsOff : Nat
deriving DecidableEq, Repr

/-- `ClassAccessor::from_raw`: decode the four leading ULEB128 counts. -/
def classAccessorFromRaw (classData : List Nat) : Except DexErr ClassAccessorM :=
  match ulebDecodeOff classData 0 with
  | none => .error .varIntError
  | some (nsf, p1) =>
    match ulebDecodeOff classData p1 with
    | none => .error .varIntError
    | some (nif, p2) =>
      match ulebDecodeOff classData p2 with
      | none => .error .varIntError
      | some (ndm, p3) =>
        match ulebDecodeOff classData p3 with
        | none => .error .varIntError
        | some (nvm, p4) =>
          .ok { classData := classData, numStaticFields := nsf,
                numInstanceFields := nif, numDirectMethods := ndm,
                numVirtualMethods := nvm, staticFieldsOff := p4 }

/-- `DataIterator<Field>::next`, unfolded into the list of produced
items: the `is_valid` guard `pos < end_pos` appears here as the
remaining-step count `end_pos - pos`, carried as the last (structural)
argument; before reading, the section flag flips when `pos` hits the
partition; a read error silently ends the iteration. -/
def fieldIterSteps (classData : List Nat) (value : FieldM)
    (pos off partition : Nat) : Nat → List FieldM
  | 0 => []
  | fuel + 1 =>
    let value1 := if pos = partition then value.nextSection else value
    match value1.read classData off with
    | .error _ => []
    | .ok (v2, off2) => v2 :: fieldIterSteps classData v2 (pos + 1) off2 partition fuel

/-- `DataIterator<Method>::next`, unfolded into the produced list (same
`end_pos - pos` parametrization). -/
def methodIterSteps (classData : List Nat) (value : MethodM)
    (pos off partition : Nat) : Nat → List MethodM
  | 0 => []
  | fuel + 1 =>
    let value1 := if pos = partition then value.nextSection else value
    match value1.read classData off with
    | .error _ => []
    | .ok (v2, off2) => v2 :: methodIterSteps classData v2 (pos + 1) off2 partition fuel

/-- `ClassAccessor::get_fields`: iterate both field sections with the
partition at `num_static_fields` and `end_pos = num_fields`. -/
def ClassAccessorM.getFields (ca : ClassAccessorM) : List FieldM :=
  fieldIterSteps ca.classData FieldM.dflt 0 ca.staticFieldsOff
    ca.numStaticFields (ca.numStaticFields + ca.numInstanceFields)

/-- `visit_members::<Field>` reduced to the cursor it leaves behind
(get_methods uses it to skip the field sections). -/
def skipFields (classData : List Nat) : Nat → FieldM → Nat → Except DexErr Nat
  | 0, _, off => .ok off
  | n + 1, f, off =>
    match f.read classData off with
    | .error e => .error e
    | .ok (f2, off2) => skipFields classData n f2 off2

/-- `ClassAccessor::get_methods`: skip all fields, then iterate both
method sections with the partition at `num_direct_methods`. -/
def ClassAccessorM.getMethods (ca : ClassAccessorM) : Except DexErr (List MethodM) := do
  let off ← skipFields ca.classData (ca.numStaticFields + ca.numInstanceFields)
    FieldM.dflt ca.staticFieldsOff
  pure (methodIterSteps ca.classData MethodM.dflt 0 off ca.numDirectMethods
    (ca.numDirectMethods + ca.numVirtualMethods))

/-- Fields produced for a raw class_data byte string. -/
def fieldsOfClassData (b : List Nat) : List FieldM :=
  match classAccessorFromRaw b with
  | .error _ => []
  | .ok ca => ca.getFields

/-- Methods produced for a raw class_data byte string. -/
def methodsOfClassData (b : List Nat) : Except DexErr (List MethodM) :=
  match classAccessorFromRaw b with
  | .error e => .error e
  | .ok ca => ca.getMethods

/-!
## Debug-info position decoder (file/debug.rs)
-/

/-- `PositionInfo`; `file == none` is `SourceFile::This`. -/
structure PositionInfoM : Type where
  address : Nat
  line : Nat
  file : Option Nat
  prologueEnd : Bool
  epilogueBegin : Bool
deriving DecidableEq, Repr

/-- `PositionInfo::new()`. -/
def PositionInfoM.new : PositionInfoM :=
  { address := 0, line := 0, file := none, prologueEnd := false,
    epilogueBegin := false }

/-- The `for _ in 0..size` loop of `decode_parameter_names` skipping
ULEB128p1 string indices. -/
def skipParamNames (ptr : List Nat) : Nat → Nat → Except DexErr Nat
  | 0, off => .ok off
  | n + 1, off =>
    match ulebP1DecodeOff ptr off with
    | none => .error .varIntError
    | some (_, off2) => skipParamNames ptr n off2

/-- `decode_parameter_names` (with the null visitor): returns the
starting line number and the cursor after the parameter-name block. -/
def decodeParamNames (ptr : List Nat) : Except DexErr (Nat × Nat) := do
  match ulebDecodeOff ptr 0 with
  | none => throw .varIntError
  | some (line, off1) =>
    match ulebDecodeOff ptr off1 with
    | none => throw .varIntError
    | some (size, off2) =>
      let off3 ← skipParamNames ptr size off2
      pure (line, off3)

/-- The opcode loop of `decode_position_info`, collecting every entry
handed to the position visitor.  `self.ptr[offset]` without a bounds
check is a Rust panic, modelled as `DexErr.panicked`; u32 register
updates wrap (release-mode overflow semantics — the source itself notes
"This will cause overflow").  In the special-opcode arm the line
register receives `(DBG_LINE_BASE + adj % 15) as u8` ZERO-extended to
u32, i.e. `(0xFC + adj % 15) % 256`, not the signed value `-4 + adj % 15`.
Each step advances the cursor, so `fuel ≥ ptr.length + 1` is never
exhausted. -/
def decodePositionLoop (ptr : List Nat) (entry : PositionInfoM) (offset : Nat) :
    Nat → Except DexErr (List PositionInfoM)
  | 0 => .error .outOfFuel
  | fuel + 1 =>
    if offset < ptr.length then
      let opcode := ptr.getD offset 0
      let off1 := offset + 1
      if opcode = 0x00 then .ok []
      else if opcode = 0x01 then
        match ulebDecodeOff ptr off1 with
        | none => .error .varIntError
        | some (v, off2) =>
          decodePositionLoop ptr { entry with address := (entry.address + v) % 2 ^ 32 } off2 fuel
      else if opcode = 0x02 then
        match ulebDecodeOff ptr off1 with
        | none => .error .varIntError
        | some (v, off2) =>
          decodePositionLoop ptr { entry with line := (entry.line + v) % 2 ^ 32 } off2 fuel
      else if opcode = 0x03 then
        match ulebDecodeOff ptr off1 with
        | none => .error .varIntError
        | some (_, o2) =>
          match ulebP1DecodeOff ptr o2 with
          | none => .error .varIntError
          | some (_, o3) =>
            match ulebP1DecodeOff ptr o3 with
            | none => .error .varIntError
            | some (_, o4) => decodePositionLoop ptr entry o4 fuel
      else if opcode = 0x04 then
        match ulebDecodeOff ptr off1 with
        | none => .error .varIntError
        | some (_, o2) =>
          match ulebP1DecodeOff ptr o2 with
          | none => .error .varIntError
          | some (_, o3) =>
            match ulebP1DecodeOff ptr o3 with
            | none => .error .varIntError
            | some (_, o4) =>
              match ulebP1DecodeOff ptr o4 with
              | none => .error .varIntError
              | some (_, o5) => decodePositionLoop ptr entry o5 fuel
      else if opcode = 0x05 ∨ opcode = 0x06 then
        match ulebDecodeOff ptr off1 with
        | none => .error .varIntError
        | some (_, o2) => decodePositionLoop ptr entry o2 fuel
      else if opcode = 0x07 then
        decodePositionLoop ptr { entry with prologueEnd := true } off1 fuel
      else if opcode = 0x08 then
        decodePositionLoop ptr { entry with epilogueBegin := true } off1 fuel
      else if opcode = 0x09 then
        match ulebP1DecodeOff ptr off1 with
        | none => .error .varIntError
        | some (v, o2) =>
          let fileIdx := (((v % 2 ^ 32) + 2 ^ 32) % 2 ^ 32).toNat
          decodePositionLoop ptr { entry with file := some fileIdx } o2 fuel
      else
        let adj := opcode - 0x0A
        let entry1 := { entry with
          address := (entry.address + adj / 15) % 2 ^ 32,
          line := (entry.line + (0xFC + adj % 15) % 2 ^ 8) % 2 ^ 32 }
        match decodePositionLoop ptr
            { entry1 with prologueEnd := false, epilogueBegin := false } off1 fuel with
        | .error e => .error e
        | .ok rest => .ok (entry1 :: rest)
    else .error .panicked

/-- `decode_position_info` with a collecting visitor: parameter-name
header first, then the opcode state machine. -/
def decodePositionInfo (ptr : List Nat) : Except DexErr (List PositionInfoM) := do
  let (line, off) ← decodeParamNames ptr
  decodePositionLoop ptr { PositionInfoM.new with line := line } off (ptr.length + 1)

/-!
## MUTF-8 codec (utf.rs)
-/

/-- `is_lead`. -/
def isLeadSurr (ch : Nat) : Bool := ch &&& 0xFC00 = 0xD800

/-- `is_trail`. -/
def isTrailSurr (ch : Nat) : Bool := ch &&& 0xFC00 = 0xDC00

/-- `is_surrogate`. -/
def isSurr (ch : Nat) : Bool := ch &&& 0xF800 = 0xD800

/-- `is_surrogate_lead`. -/
def isSurrLead (ch : Nat) : Bool := ch &&& 0x0400 = 0

/-- `get_supplementary` in wrapping u32 arithmetic
(`OFFSET = (0xd800 << 10) + 0xdc00 - 0x10000`). -/
def getSupplementary (lead trail : Nat) : Nat :=
  ((lead <<< 10) + trail + 2 ^ 32 - ((0xD800 <<< 10) + 0xDC00 - 0x10000)) % 2 ^ 32

/-- The `convert_utf16_to_mutf8` loop as the byte list it appends.  The
`utf16_in[in_idx + 1]` lookahead past the end (a Rust panic) is modelled
as reading 0.  The first (structural) argument counts the remaining loop
steps; the caller passes the input length, which always suffices since
every step consumes at least one unit. -/
def convertUtf16ToMutf8Core (shortZero replaceBad : Bool) : Nat → List Nat → List Nat
  | 0, _ => []
  | _, [] => []
  | fuel + 1, ch :: rest =>
    if ch < 0x80 ∧ (shortZero = true ∨ ch ≠ 0) then
      ch % 2 ^ 8 :: convertUtf16ToMutf8Core shortZero replaceBad fuel rest
    else if ch < 0x800 then
      ((ch >>> 6) ||| 0xC0) % 2 ^ 8 :: ((ch &&& 0x3F) ||| 0x80) % 2 ^ 8 ::
        convertUtf16ToMutf8Core shortZero replaceBad fuel rest
    else if isSurr ch = true ∨
        (isLeadSurr ch = true ∧ rest ≠ [] ∧ isTrailSurr (rest.headD 0) = true) then
      if replaceBad = true ∧ (isSurrLead ch = false ∧ rest ≠ [] ∧
          isTrailSurr (rest.headD 0) = false) then
        0x3F :: convertUtf16ToMutf8Core shortZero replaceBad fuel rest
      else
        let cp := getSupplementary ch (rest.headD 0)
        ((cp >>> 18) ||| 0xF0) % 2 ^ 8 :: ((cp >>> 12) &&& 0x3F ||| 0x80) % 2 ^ 8 ::
          ((cp >>> 6) &&& 0x3F ||| 0x80) % 2 ^ 8 :: ((cp &&& 0x3F) ||| 0x80) % 2 ^ 8 ::
          convertUtf16ToMutf8Core shortZero replaceBad fuel (rest.drop 1)
    else
      ((ch >>> 12) ||| 0xE0) % 2 ^ 8 :: ((ch >>> 6) &&& 0x3F ||| 0x80) % 2 ^ 8 ::
        ((ch &&& 0x3F) ||| 0x80) % 2 ^ 8 ::
        convertUtf16ToMutf8Core shortZero replaceBad fuel rest

/-- `convert_utf16_to_mutf8` on a whole input. -/
def convertUtf16ToMutf8 (shortZero replaceBad : Bool) (utf16In : List Nat) : List Nat :=
  convertUtf16ToMutf8Core shortZero replaceBad utf16In.length utf16In

/-- `utf16_to_mutf8`: a counting pass, then either the all-ASCII fast
path or `vec![0x00; mutf8_len + 1]` FOLLOWED BY pushes (so the encoded
bytes land after `mutf8_len + 1` zero bytes), and a trailing NUL. -/
def utf16ToMutf8 (utf16In : List Nat) (shortZero replaceBad : Bool) : List Nat :=
  let converted := convertUtf16ToMutf8 shortZero replaceBad utf16In
  let mutf8Length := converted.length
  let out :=
    if mutf8Length = utf16In.length then utf16In.map (fun ch => ch % 2 ^ 8)
    else List.replicate (mutf8Length + 1) 0 ++ converted
  out ++ [0]

/-- `str_to_mutf8` restricted to its UTF-16 core: the host string is
first expanded to UTF-16 code units, then encoded with `Options::new()`
(`short_zero = false`, `replace_bad_surrogates = false`). -/
def strToMutf8 (utf16In : List Nat) : List Nat :=
  utf16ToMutf8 utf16In false false

/-- `utf16_from_utf8`: decode one MUTF-8 sequence at cursor `i`,
returning the (possibly surrogate-pair-packed) u32 and the new cursor.
Byte reads past the end (a Rust panic) are modelled as reading 0. -/
def utf16FromUtf8 (data : List Nat) (i : Nat) : Nat × Nat :=
  let one := data.getD i 0
  if one &&& 0x80 = 0 then (one, i + 1)
  else
    let two := data.getD (i + 1) 0
    if one &&& 0x20 = 0 then
      (((one &&& 0x1F) <<< 6) ||| (two &&& 0x3F), i + 2)
    else
      let three := data.getD (i + 2) 0
      if one &&& 0x10 = 0 then
        (((one &&& 0x0F) <<< 12) ||| ((two &&& 0x3F) <<< 6) ||| (three &&& 0x3F), i + 3)
      else
        let four := data.getD (i + 3) 0
        let cp := ((one &&& 0x0F) <<< 18) ||| ((two &&& 0x3F) <<< 12) |||
          ((three &&& 0x3F) <<< 6) ||| (four &&& 0x3F)
        ((((cp >>> 10) + 0xD7C0) &&& 0xFFFF) ||| (((cp &&& 0x3FF) + 0xDC80) <<< 16), i + 4)

/-- `mutf8_len`: count output UTF-16 units over the first `limit` bytes
(four-byte sequences count twice).  The structural first argument counts
remaining loop steps; `limit` steps always suffice since the cursor
advances every step. -/
def mutf8LenCountCore (data : List Nat) (limit : Nat) : Nat → Nat → Nat
  | 0, _ => 0
  | fuel + 1, i =>
    if i < limit then
      let b := data.getD i 0
      let k := if b &&& 0x80 = 0 then 1 else if b &&& 0x20 = 0 then 2
        else if b &&& 0x10 = 0 then 3 else 4
      let c := if b &&& 0x80 = 0 then 1 else if b &&& 0x20 = 0 then 1
        else if b &&& 0x10 = 0 then 1 else 2
      c + mutf8LenCountCore data limit fuel (i + k)
    else 0

/-- `mutf8_len` from cursor 0. -/
def mutf8LenCount (data : List Nat) (limit : Nat) : Nat :=
  mutf8LenCountCore data limit limit 0

/-- The decoding loop of `convert_mutf8_to_utf16`: push the leading unit
(`maybe_pair & 0xFFFFF` as u16) and, when non-zero, the trailing unit
(`maybe_pair >> 16`).  Fuel as in `mutf8LenCountCore`. -/
def convertMutf8ToUtf16LoopCore (data : List Nat) (limit : Nat) : Nat → Nat → List Nat
  | 0, _ => []
  | fuel + 1, i =>
    if i < limit then
      let p := utf16FromUtf8 data i
      let leading := (p.1 &&& 0xFFFFF) % 2 ^ 16
      let trailing := (p.1 >>> 16) % 2 ^ 16
      (if trailing ≠ 0 then [leading, trailing] else [leading]) ++
        convertMutf8ToUtf16LoopCore data limit fuel p.2
    else []

/-- The decoding loop from cursor 0. -/
def convertMutf8ToUtf16Loop (data : List Nat) (limit : Nat) : List Nat :=
  convertMutf8ToUtf16LoopCore data limit limit 0

/-- `convert_mutf8_to_utf16`: the (dead) all-ASCII fast path compares
`out_chars` against the FULL input length (terminator included),
otherwise the decoding loop over the first `utf8_in_len` bytes. -/
def convertMutf8ToUtf16 (data : List Nat) (utf8InLen outChars : Nat) : List Nat :=
  if data.length = outChars then data.map (fun b => b % 2 ^ 16)
  else convertMutf8ToUtf16Loop data utf8InLen

/-- `mutf8_to_utf16`: empty input stays empty; otherwise drop the final
byte from the scan length and convert. -/
def mutf8ToUtf16 (data : List Nat) : List Nat :=
  if data = [] then []
  else
    let utf8InLen := data.length - 1
    let outChars := mutf8LenCount data utf8InLen
    convertMutf8ToUtf16 data utf8InLen outChars

/-!
## Encoded values (file annotations.rs)
-/

/-- `FillStrategy`. -/
inductive FillStrategyM : Type where
  | left : FillStrategyM
  | right : FillStrategyM
deriving DecidableEq, Repr

/-- The decoded `EncodedValue` tree.  `float`/`double` carry the
unsigned register the source then passes through a NUMERIC `as f32` /
`as f64` cast; the floating-point cast itself is not modelled. -/
inductive EncodedValueM : Type where
  | byte (v : Int)
  | short (v : Int)
  | char (v : Nat)
  | int (v : Int)
  | long (v : Int)
  | float (bits : Nat)
  | double (bits : Nat)
  | methodType (v : Nat)
  | methodHandle (v : Nat)
  | stringRef (v : Nat)
  | typeRef (v : Nat)
  | fieldRef (v : Nat)
  | methodRef (v : Nat)
  | enumRef (v : Nat)
  | array (vs : List EncodedValueM)
  | annotation (typeIdx : Nat) (elements : List (Nat × EncodedValueM))
  | null
  | boolean (b : Bool)
deriving Repr

/-- `EncodedValueType::is_valid`. -/
def evTypeIsValid (valueType : Nat) : Bool :=
  valueType = 0x00 ∨ (0x02 ≤ valueType ∧ valueType ≤ 0x04) ∨ valueType = 0x06 ∨
    valueType = 0x10 ∨ valueType = 0x11 ∨ (0x15 ≤ valueType ∧ valueType ≤ 0x1F)

/-- `check_size::<T>` for `size = size_of::<T>()`: note the first test is
`value_arg + 1 >= size`, rejecting the full-width payload
`value_arg + 1 == size_of(T)`, and the second is `offset + width >=
value.len()`, rejecting a payload that ends exactly at the buffer end. -/
def checkSize (size valueArg valueType width offset : Nat) (value : List Nat) :
    Except DexErr Unit :=
  if valueArg + 1 ≥ size then
    .error (.badEncodedValueSize valueType valueArg size)
  else if offset + width ≥ value.length then
    .error (.invalidEncodedValue valueType (offset + width) value.length)
  else .ok ()

/-- The `for i in (0..width).rev()` byte-gathering loop of the `as_int!`
macro on a `bits`-wide register: each step shifts the register right by
8 and ORs byte `value[i + offset]` into the top byte (so the FIRST
payload byte ends up most significant).  The `<< (bits-8)` overflow
wraps (release semantics). -/
def asIntFold (value : List Nat) (offset bits : Nat) (idxs : List Nat) : Nat :=
  idxs.foldl
    (fun val i => (val >>> 8) ||| ((value.getD (i + offset) 0 <<< (bits - 8)) % 2 ^ bits))
    0

/-- `as_signed_int` (`as_int!` with target i32): gather, then ARITHMETIC
right shift by `(3 - value_arg) * 8`; returns the value and the advanced
cursor. -/
def asSignedInt (value : List Nat) (valueArg valueType offset : Nat) :
    Except DexErr (Int × Nat) := do
  let width := valueArg + 1
  checkSize 4 valueArg valueType width offset value
  let raw := asIntFold value offset 32 (List.range width).reverse
  pure (Int.fdiv (int32Of raw) (2 ^ ((4 - 1 - valueArg) * 8)), offset + width)

/-- Two's-complement reinterpretation of a 64-bit pattern. -/
def int64Of (n : Nat) : Int :=
  if n % 2 ^ 64 < 2 ^ 63 then ((n % 2 ^ 64 : Nat) : Int)
  else ((n % 2 ^ 64 : Nat) : Int) - 2 ^ 64

/-- `as_signed_long` (`as_int!` with target i64). -/
def asSignedLong (value : List Nat) (valueArg valueType offset : Nat) :
    Except DexErr (Int × Nat) := do
  let width := valueArg + 1
  checkSize 8 valueArg valueType width offset value
  let raw := asIntFold value offset 64 (List.range width).reverse
  pure (Int.fdiv (int64Of raw) (2 ^ ((8 - 1 - valueArg) * 8)), offset + width)

/-- `as_unsigned_int`: gather, LOGICAL right shift by `(3 - value_arg) *
8`, then the fill strategy (`Right` shifts further by `31 - value_arg *
8`). -/
def asUnsignedInt (value : List Nat) (valueArg valueType offset : Nat)
    (strategy : FillStrategyM) : Except DexErr (Nat × Nat) := do
  let width := valueArg + 1
  checkSize 4 valueArg valueType width offset value
  let raw := asIntFold value offset 32 (List.range width).reverse
  let v := raw >>> ((4 - 1 - valueArg) * 8)
  pure (match strategy with
    | .left => v
    | .right => v >>> ((32 - 1) - valueArg * 8), offset + width)

/-- `as_unsigned_long`. -/
def asUnsignedLong (value : List Nat) (valueArg valueType offset : Nat)
    (strategy : FillStrategyM) : Except DexErr (Nat × Nat) := do
  let width := valueArg + 1
  checkSize 8 valueArg valueType width offset value
  let raw := asIntFold value offset 64 (List.range width).reverse
  let v := raw >>> ((8 - 1 - valueArg) * 8)
  pure (match strategy with
    | .left => v
    | .right => v >>> ((64 - 1) - valueArg * 8), offset + width)

/-- The combined recursive core of the encoded-value reader
(`EncodedValue::from_raw_parts` / `from_encoded_array` /
`EncodedAnnotation::from_raw_parts` / `AnnotationElement::from_raw_parts`):
parse exactly `n` consecutive encoded values, each prefixed by a ULEB128
element name when `withNames` is set (the annotation-element case), and
return them with the advanced cursor.  `fuel` is a structural recursion
bound of the embedding only: one unit is consumed per parsed element and
per nesting level, so any fuel above `2 * value.length + 2` is never
exhausted (every element consumes at least one input byte). -/
def evParseCore : Nat → Bool → List Nat → Nat → Nat →
    Except DexErr (List (Nat × EncodedValueM) × Nat)
  | 0, _, _, _, _ => .error .outOfFuel
  | _ + 1, _, _, offset, 0 => .ok ([], offset)
  | fuel + 1, withNames, value, offset, n + 1 =>
    let nameRes : Except DexErr (Nat × Nat) :=
      if withNames then
        match ulebDecodeOff value offset with
        | none => .error .varIntError
        | some (nameIdx, offset1) => .ok (nameIdx, offset1)
      else .ok (0, offset)
    match nameRes with
    | .error e => .error e
    | .ok (nameIdx, offset) =>
      if offset ≥ value.length then .error .emptyEncodedValue
      else
        let headerByte := value.getD offset 0
        let valueType := headerByte &&& 0x1F
        let valueArg := (headerByte &&& 0xE0) >>> 5
        if ¬evTypeIsValid valueType then .error (.badEncodedValueType valueType)
        else
          let offset := offset + 1
          let oneRes : Except DexErr (EncodedValueM × Nat) :=
            if valueType = 0x00 then
              (asSignedInt value valueArg valueType offset).map fun p =>
                (.byte (toI8 p.1), p.2)
            else if valueType = 0x02 then
              (asSignedInt value valueArg valueType offset).map fun p =>
                (.short (toI16 p.1), p.2)
            else if valueType = 0x03 then
              (asUnsignedInt value valueArg valueType offset .left).map fun p =>
                (.char (p.1 % 2 ^ 16), p.2)
            else if valueType = 0x04 then
              (asSignedInt value valueArg valueType offset).map fun p => (.int p.1, p.2)
            else if valueType = 0x06 then
              (asSignedLong value valueArg valueType offset).map fun p => (.long p.1, p.2)
            else if valueType = 0x10 then
              (asUnsignedInt value valueArg valueType offset .right).map fun p =>
                (.float p.1, p.2)
            else if valueType = 0x11 then
              (asUnsignedLong value valueArg valueType offset .right).map fun p =>
                (.double p.1, p.2)
            else if valueType = 0x15 then
              (asUnsignedInt value valueArg valueType offset .left).map fun p =>
                (.methodType p.1, p.2)
            else if valueType = 0x16 then
              (asUnsignedInt value valueArg valueType offset .left).map fun p =>
                (.methodHandle p.1, p.2)
            else if valueType = 0x17 then
              (asUnsignedInt value valueArg valueType offset .left).map fun p =>
                (.stringRef p.1, p.2)
            else if valueType = 0x18 then
              (asUnsignedInt value valueArg valueType offset .left).map fun p =>
                (.typeRef p.1, p.2)
            else if valueType = 0x19 then
              (asUnsignedInt value valueArg valueType offset .left).map fun p =>
                (.fieldRef p.1, p.2)
            else if valueType = 0x1a then
              (asUnsignedInt value valueArg valueType offset .left).map fun p =>
                (.methodRef p.1, p.2)
            else if valueType = 0x1b then
              (asUnsignedInt value valueArg valueType offset .left).map fun p =>
                (.enumRef p.1, p.2)
            else if valueType = 0x1c then
              match ulebDecodeOff value offset with
              | none => .error .varIntError
              | some (length, offset) =>
                if offset ≥ value.length then
                  .error (.invalidEncodedValue 0x1c offset value.length)
                else if offset + length * 2 ≥ value.length then
                  .error (.badEncodedArrayLength 0x1c value.length offset)
                else
                  match evParseCore fuel false value offset length with
                  | .error e => .error e
                  | .ok (vs, offset2) => .ok (.array (vs.map Prod.snd), offset2)
            else if valueType = 0x1d then
              match ulebDecodeOff value offset with
              | none => .error .varIntError
              | some (typeIdx, offset) =>
                match ulebDecodeOff value offset with
                | none => .error .varIntError
                | some (length, offset) =>
                  if offset + length * 2 ≥ value.length then
                    .error (.badEncodedArrayLength 0x1d value.length offset)
                  else
                    match evParseCore fuel true value offset length with
                    | .error e => .error e
                    | .ok (es, offset2) => .ok (EncodedValueM.annotation typeIdx es, offset2)
            else if valueType = 0x1e then .ok (.null, offset)
            else .ok (.boolean (valueArg ≠ 0), offset)
          match oneRes with
          | .error e => .error e
          | .ok (v, offset2) =>
            match evParseCore fuel withNames value offset2 n with
            | .error e => .error e
            | .ok (vs, offset3) => .ok ((nameIdx, v) :: vs, offset3)

/-- `EncodedValue::from_raw_parts`: parse one encoded value at the
cursor. -/
def evFromRawParts (fuel : Nat) (value : List Nat) (offset : Nat) :
    Except DexErr (EncodedValueM × Nat) :=
  match evParseCore fuel false value offset 1 with
  | .error e => .error e
  | .ok (vs, offset2) => .ok ((vs.headD (0, .null)).2, offset2)

/-- `EncodedValue::new`: parse at cursor 0 (with ample fuel). -/
def evNew (value : List Nat) : Except DexErr (EncodedValueM × Nat) :=
  evFromRawParts (2 * value.length + 2) value 0

/-!
## Encoded catch handlers (file/code_item_accessors.rs)
-/

/-- Modelled from the spec: `CatchHandlerData` is referenced by
code_item_accessors.rs but its declaration is not under src/; section 3
gives its shape — type index (u16, `u16::MAX` for the synthetic
catch-all), handler address, catch-all marker — with zeroed default. -/
structure CatchHandlerData : Type where
  typeIdx : Nat
  address : Nat
  isCatchAll : Bool
deriving DecidableEq, Repr

/-- `EncodedCatchHandlerIterator` state. -/
structure CatchIterSt : Type where
  data : List Nat
  offset : Nat
  hasCatchAll : Bool
  remaining : Int
deriving DecidableEq, Repr

/-- `EncodedCatchHandlerIterator::new`: decode the leading SLEB128; a
non-positive count flags a trailing catch-all and is negated with i32
(wrapping) semantics. -/
def catchIterNew (data : List Nat) : Except DexErr CatchIterSt :=
  match slebDecode data with
  | none => .error .varIntError
  | some (remaining, pos) =>
    .ok { data := data, offset := pos, hasCatchAll := remaining ≤ 0,
          remaining := if remaining ≤ 0 then wrapI32 (-remaining) else remaining }

/-- `EncodedCatchHandlerIterator::leb128`: an in-iterator ULEB128 read
whose failure is a Rust panic (`DexErr.panicked`). -/
def catchIterLeb (s : CatchIterSt) : Except DexErr (Nat × CatchIterSt) :=
  match ulebDecodeOff s.data s.offset with
  | none => .error .panicked
  | some (v, pos) => .ok (v, { s with offset := pos })

/-- One `next()` call: `remaining == -1` ends; positive `remaining`
yields a typed handler (type index truncated to u16); then the
catch-all, if flagged, with `type_idx = u16::MAX`. -/
def catchIterNext (s : CatchIterSt) :
    Except DexErr (Option (CatchHandlerData × CatchIterSt)) :=
  if s.remaining = -1 then .ok none
  else if s.remaining > 0 then
    match catchIterLeb s with
    | .error e => .error e
    | .ok (t, s1) =>
      match catchIterLeb s1 with
      | .error e => .error e
      | .ok (a, s2) =>
        .ok (some ({ typeIdx := t % 2 ^ 16, address := a, isCatchAll := false },
          { s2 with remaining := s.remaining - 1 }))
  else if s.hasCatchAll then
    match catchIterLeb s with
    | .error e => .error e
    | .ok (a, s1) =>
      .ok (some ({ typeIdx := 65535, address := a, isCatchAll := true },
        { s1 with hasCatchAll := false }))
  else .ok none

/-- Drive `next()` to exhaustion, collecting the yielded handlers.
`fuel` bounds the number of `next()` calls; `remaining.toNat + 2` calls
always suffice, since each typed step decrements `remaining` and the
catch-all step clears its flag. -/
def catchIterSteps (s : CatchIterSt) : Nat → Except DexErr (List CatchHandlerData)
  | 0 => .ok []
  | fuel + 1 =>
    match catchIterNext s with
    | .error e => .error e
    | .ok none => .ok []
    | .ok (some (x, s2)) => (catchIterSteps s2 fuel).map fun l => x :: l

/-- The full handler list produced for a raw encoded catch handler
byte string. -/
def catchHandlers (data : List Nat) : Except DexErr (List CatchHandlerData) :=
  match catchIterNew data with
  | .error e => .error e
  | .ok s => catchIterSteps s (s.remaining.toNat + 2)

/-- The byte encoding of one typed handler list: each pair is
`(type_idx, address)` as two ULEB128s. -/
def encCatchPairs (pairs : List (Nat × Nat)) : List Nat :=
  pairs.flatMap fun p => ulebEncode p.1 ++ ulebEncode p.2

/-!
## Instruction decoder (file/instruction.rs)

An instruction is the `&[u16]` tail slice `Instruction::at` wraps; code
units are u16 values.
-/

/-- The 27 `Format` tags, in source declaration order. -/
inductive FormatM : Type where
  | k10x | k12x | k11n | k11x | k10t | k20t | k22x | k21t | k21s | k21h
  | k21c | k23x | k22b | k22t | k22s | k22c | k32x | k30t | k31t | k31i
  | k31c | k35c | k3rc | k45cc | k4rcc | k51l | kInvalidFormat
deriving DecidableEq, Repr

/-- The `repr(u8)` discriminant of a format (its declaration position). -/
def FormatM.idx : FormatM -> Nat
  | .k10x => 0 | .k12x => 1 | .k11n => 2 | .k11x => 3 | .k10t => 4
  | .k20t => 5 | .k22x => 6 | .k21t => 7 | .k21s => 8 | .k21h => 9
  | .k21c => 10 | .k23x => 11 | .k22b => 12 | .k22t => 13 | .k22s => 14
  | .k22c => 15 | .k32x => 16 | .k30t => 17 | .k31t => 18 | .k31i => 19
  | .k31c => 20 | .k35c => 21 | .k3rc => 22 | .k45cc => 23 | .k4rcc => 24
  | .k51l => 25 | .kInvalidFormat => 26

/-- Opcodes 0x00-0x1f of the descriptor table. -/
def formatTable0 : List FormatM :=
  [
   .k10x, .k12x, .k22x, .k32x, .k12x, .k22x, .k32x, .k12x,
   .k22x, .k32x, .k11x, .k11x, .k11x, .k11x, .k10x, .k11x,
   .k11x, .k11x, .k11n, .k21s, .k31i, .k21h, .k21s, .k31i,
   .k51l, .k21h, .k21c, .k31c, .k21c, .k11x, .k11x, .k21c
  ]

/-- Opcodes 0x20-0x3f of the descriptor table. -/
def formatTable1 : List FormatM :=
  [
   .k22c, .k12x, .k21c, .k22c, .k35c, .k3rc, .k31t, .k11x,
   .k10t, .k20t, .k30t, .k31t, .k31t, .k23x, .k23x, .k23x,
   .k23x, .k23x, .k22t, .k22t, .k22t, .k22t, .k22t, .k22t,
   .k21t, .k21t, .k21t, .k21t, .k21t, .k21t, .k10x, .k10x
  ]

/-- Opcodes 0x40-0x5f of the descriptor table. -/
def formatTable2 : List FormatM :=
  [
   .k10x, .k10x, .k10x, .k10x, .k23x, .k23x, .k23x, .k23x,
   .k23x, .k23x, .k23x, .k23x, .k23x, .k23x, .k23x, .k23x,
   .k23x, .k23x, .k22c, .k22c, .k22c, .k22c, .k22c, .k22c,
   .k22c, .k22c, .k22c, .k22c, .k22c, .k22c, .k22c, .k22c
  ]

/-- Opcodes 0x60-0x7f of the descriptor table. -/
def formatTable3 : List FormatM :=
  [
   .k21c, .k21c, .k21c, .k21c, .k21c, .k21c, .k21c, .k21c,
   .k21c, .k21c, .k21c, .k21c, .k21c, .k21c, .k35c, .k35c,
   .k35c, .k35c, .k35c, .k10x, .k3rc, .k3rc, .k3rc, .k3rc,
   .k3rc, .k10x, .k10x, .k12x, .k12x, .k12x, .k12x, .k12x
  ]

/-- Opcodes 0x80-0x9f of the descriptor table. -/
def formatTable4 : List FormatM :=
  [
   .k12x, .k12x, .k12x, .k12x, .k12x, .k12x, .k12x, .k12x,
   .k12x, .k12x, .k12x, .k12x, .k12x, .k12x, .k12x, .k12x,
   .k23x, .k23x, .k23x, .k23x, .k23x, .k23x, .k23x, .k23x,
   .k23x, .k23x, .k23x, .k23x, .k23x, .k23x, .k23x, .k23x
  ]

/-- Opcodes 0xa0-0xbf of the descriptor table. -/
def formatTable5 : List FormatM :=
  [
   .k23x, .k23x, .k23x, .k23x, .k23x, .k23x, .k23x, .k23x,
   .k23x, .k23x, .k23x, .k23x, .k23x, .k23x, .k23x, .k23x,
   .k12x, .k12x, .k12x, .k12x, .k12x, .k12x, .k12x, .k12x,
   .k12x, .k12x, .k12x, .k12x, .k12x, .k12x, .k12x, .k12x
  ]

/-- Opcodes 0xc0-0xdf of the descriptor table. -/
def formatTable6 : List FormatM :=
  [
   .k12x, .k12x, .k12x, .k12x, .k12x, .k12x, .k12x, .k12x,
   .k12x, .k12x, .k12x, .k12x, .k12x, .k12x, .k12x, .k12x,
   .k22s, .k22s, .k22s, .k22s, .k22s, .k22s, .k22s, .k22s,
   .k22b, .k22b, .k22b, .k22b, .k22b, .k22b, .k22b, .k22b
  ]

/-- Opcodes 0xe0-0xff of the descriptor table. -/
def formatTable7 : List FormatM :=
  [
   .k22b, .k22b, .k22b, .k10x, .k10x, .k10x, .k10x, .k10x,
   .k10x, .k10x, .k10x, .k10x, .k10x, .k10x, .k10x, .k10x,
   .k10x, .k10x, .k10x, .k10x, .k10x, .k10x, .k10x, .k10x,
   .k10x, .k10x, .k45cc, .k4rcc, .k35c, .k3rc, .k21c, .k21c
  ]

/-- The format column of the 256-entry `INSN_DESCRIPTORS` table, in
opcode order. -/
def formatTable : List FormatM :=
  formatTable0 ++ formatTable1 ++ formatTable2 ++ formatTable3 ++
    formatTable4 ++ formatTable5 ++ formatTable6 ++ formatTable7


/-- Format of an opcode byte: index into the descriptor table. -/
def formatOf (op : Nat) : FormatM :=
  formatTable.getD op .kInvalidFormat

/-- `code_size_in_code_units_by_opcode`: `NOP` (opcode 0) is Complex
(255); otherwise the size comes from the format-discriminant ranges.  A
format outside every range — `k32x` and `kInvalidFormat` — yields the
Custom marker (254). -/
def codeSizeByOpcode (opcode : Nat) (format : FormatM) : Nat :=
  if opcode = 0 then 255
  else if FormatM.k10x.idx <= format.idx /\ format.idx <= FormatM.k10t.idx then 1
  else if FormatM.k20t.idx <= format.idx /\ format.idx <= FormatM.k22c.idx then 2
  else if FormatM.k30t.idx <= format.idx /\ format.idx <= FormatM.k3rc.idx then 3
  else if FormatM.k45cc.idx <= format.idx /\ format.idx <= FormatM.k4rcc.idx then 4
  else if format.idx = FormatM.k51l.idx then 5
  else 254

/-- The opcode byte of an instruction slice (`self.0[0] & 0xFF`; every
caller guards non-emptiness, `getD` models the in-bounds read). -/
def opcodeByteOf (inst : List Nat) : Nat :=
  (inst.getD 0 0 % 2 ^ 16) &&& 0xFF

/-- `Instruction::fetch16`: bounds-checked u16 code-unit read. -/
def fetch16 (inst : List Nat) (offset : Nat) : Except DexErr Nat :=
  if offset >= inst.length then
    .error (.badInstruction (opcodeByteOf inst) offset inst.length)
  else .ok (inst.getD offset 0 % 2 ^ 16)

/-- `Instruction::fetch32`: two u16 fetches, low unit first. -/
def fetch32 (inst : List Nat) (offset : Nat) : Except DexErr Nat :=
  if offset >= inst.length then
    .error (.badInstruction (opcodeByteOf inst) offset inst.length)
  else
    match fetch16 inst offset with
    | .error e => .error e
    | .ok lo =>
      match fetch16 inst (offset + 1) with
      | .error e => .error e
      | .ok hi => .ok (lo ||| (hi <<< 16))

/-- `size_in_code_units_complex`: the payload-header-driven size of the
three NOP payload signatures. -/
def sizeInCodeUnitsComplex (inst : List Nat) : Except DexErr Nat :=
  match fetch16 inst 0 with
  | .error e => .error e
  | .ok instData =>
    if instData = 0x0100 then
      match fetch16 inst 1 with
      | .error e => .error e
      | .ok sz => .ok (4 + sz * 2)
    else if instData = 0x0200 then
      match fetch16 inst 1 with
      | .error e => .error e
      | .ok sz => .ok (2 + sz * 4)
    else if instData = 0x0300 then
      match fetch16 inst 1 with
      | .error e => .error e
      | .ok elementSize =>
        match fetch32 inst 2 with
        | .error e => .error e
        | .ok length => .ok (4 + (elementSize * length + 1) / 2)
    else .ok 1

/-- `Instruction::size_in_code_units`: table size, with Complex resolved
through the payload header (`unwrap_or(1)`) and Custom mapped to 1. -/
def sizeInCodeUnits (inst : List Nat) : Nat :=
  let op := opcodeByteOf inst
  let size := codeSizeByOpcode op (formatOf op)
  if size = 255 then
    match sizeInCodeUnitsComplex inst with
    | .ok v => v
    | .error _ => 1
  else if size = 254 then 1
  else size

/-- `inst_aa`: the high byte of the first code unit. -/
def instAA (inst : List Nat) : Except DexErr Nat :=
  (fetch16 inst 0).map fun v => (v >>> 8) % 2 ^ 8

/-- `inst_a`: bits 8..11 of the first code unit. -/
def instA (inst : List Nat) : Except DexErr Nat :=
  (fetch16 inst 0).map fun v => ((v >>> 8) % 2 ^ 8) &&& 0x0F

/-- `inst_b`: bits 12..15 of the first code unit. -/
def instB (inst : List Nat) : Except DexErr Nat :=
  (fetch16 inst 0).map fun v => (v >>> 12) % 2 ^ 8

/-- `vreg::A`: the A operand, dispatched on the format (an i32; only the
`k30t` branch can go negative via the `as i32` reinterpretation). -/
def vregA (inst : List Nat) : Except DexErr Int :=
  match formatOf (opcodeByteOf inst) with
  | .k10t | .k10x | .k11x | .k21c | .k21h | .k21s | .k21t | .k22b | .k22x
  | .k23x | .k31c | .k31i | .k31t | .k3rc | .k51l | .k4rcc =>
    (instAA inst).map fun v => (v : Int)
  | .k11n | .k12x | .k22c | .k22s | .k22t =>
    (instA inst).map fun v => (v : Int)
  | .k32x | .k20t => (fetch16 inst 1).map fun v => (v : Int)
  | .k30t => (fetch32 inst 1).map fun v => int32Of v
  | .k35c | .k45cc => (instB inst).map fun v => (v : Int)
  | _ => .error (.operandAccessError (opcodeByteOf inst))

/-- `vreg::C`: the C operand, dispatched on the format. -/
def vregC (inst : List Nat) : Except DexErr Int :=
  match formatOf (opcodeByteOf inst) with
  | .k22c | .k22s | .k22t => (fetch16 inst 1).map fun v => (v : Int)
  | .k22b | .k23x => (fetch16 inst 1).map fun v => (((v >>> 8) &&& 0xFF : Nat) : Int)
  | .k3rc | .k4rcc => (fetch16 inst 2).map fun v => (v : Int)
  | .k35c | .k45cc => (fetch16 inst 2).map fun v => ((v &&& 0x0F : Nat) : Int)
  | _ => .error (.operandAccessError (opcodeByteOf inst))

/-- Rust `as u16` on an i32. -/
def toU16 (z : Int) : Nat :=
  (((z % 2 ^ 16) + 2 ^ 16) % 2 ^ 16).toNat

/-- `vreg::args_range`: `[first, first + count - 1]` (modelled as the
pair of endpoints), rejected with `InvalidArgRange` when the count is 0
OR `first + count` exceeds `u16::MAX`. -/
def argsRange (inst : List Nat) : Except DexErr (Nat × Nat) :=
  match vregC inst with
  | .error e => .error e
  | .ok c =>
    match vregA inst with
    | .error e => .error e
    | .ok a =>
      if toU16 a = 0 ∨ toU16 c + toU16 a > 65535 then
        .error (.invalidArgRange (opcodeByteOf inst) (toU16 c) (toU16 a))
      else .ok (toU16 c, toU16 c + toU16 a - 1)

/-- `DexInstructionIterator::next`, unfolded: while `pc < insns.len()`
yield `Instruction::at(&insns[pc..])` and advance `pc` by the yielded
size.  `fuel` bounds the step count; `insns.length` steps always
suffice because every step advances `pc` by at least one. -/
def dexInstIterSteps (insns : List Nat) (pc : Nat) : Nat -> List (List Nat)
  | 0 => []
  | fuel + 1 =>
    if pc < insns.length then
      insns.drop pc ::
        dexInstIterSteps insns (pc + sizeInCodeUnits (insns.drop pc)) fuel
    else []

/-- The full instruction sequence of a code-unit stream. -/
def dexInstructions (insns : List Nat) : List (List Nat) :=
  dexInstIterSteps insns 0 insns.length

/-- A well-formed encoded catch handler list declaring `-2^31` as its
SLEB128 count: `2^31` typed handlers, each the pair `(0, 0)` encoded as
two one-byte ULEB128s, then the catch-all address `7`. -/
def exDataC7 : List Nat :=
  [0x80, 0x80, 0x80, 0x80, 0x78] ++ List.replicate (2 ^ 32) 0 ++ [7]

/-!
## Theorems
-/

/-- The bounds-checked accessor pattern shared by the six id tables is
index-safe relative to the loaded slice length. -/
theorem tableSafe_check (tbl : List (List Nat)) :
    tableSafe tbl (fun idx =>
      if idx ≥ tbl.length then .error (.dexIndexError idx tbl.length)
      else .ok (tbl.getD idx [])) := by
  intro i
  constructor
  · intro hi
    exact ⟨tbl.getD i [], by simp [Nat.not_le.mpr hi]⟩
  · intro hi
    simp [hi]

/-- C1 (amended): for every byte string `B` and preset, `open` either
fails or yields a `DexFile` in which every id-table accessor `get_X(i)`
returns `Ok` for each `i` below the length of the LOADED table slice and
fails with `DexIndexError` (never a panic) for each larger `i`.
(`num_X()` reports the header count, which can exceed the loaded slice
length when verification is skipped — see the counterexample.) -/
theorem c1_open_then_index_safety (b : List Nat) (preset : VerifyPreset)
    (d : DexFileM) (_hopen : openDex b preset = .ok d) :
    tableSafe d.stringIds d.getStringId ∧ tableSafe d.typeIds d.getTypeId ∧
    tableSafe d.fieldIds d.getFieldId ∧ tableSafe d.protoIds d.getProtoId ∧
    tableSafe d.methodIds d.getMethodId ∧ tableSafe d.classDefs d.getClassDef :=
  ⟨tableSafe_check d.stringIds, tableSafe_check d.typeIds,
   tableSafe_check d.fieldIds, tableSafe_check d.protoIds,
   tableSafe_check d.methodIds, tableSafe_check d.classDefs⟩

set_option maxRecDepth 40000 in
/-- C1 witness: `exFileC1` opens successfully with `Verify=None`, and the
amended safety property instantiated there makes `get_string_id(0)` fail
with `DexIndexError` (the loaded slice is empty). -/
theorem c1_open_then_index_safety_witness :
    (mkDexFile exFileC1).getStringId 0 =
      .error (.dexIndexError 0 (mkDexFile exFileC1).stringIds.length) := by
  have h := c1_open_then_index_safety exFileC1 .noVerify (mkDexFile exFileC1)
    (by decide)
  exact (h.1 0).2 (by decide)

set_option maxRecDepth 40000 in
/-- C1 counterexample: the claim as stated is false — `exFileC1` is
accepted by `open(B, Verify=None)`, its `num_string_ids()` is 1, yet
`get_string_id(0)` returns an error (the header's string-ids section
lies outside the file, so the loaded slice is empty). -/
theorem c1_counterexample :
    openDex exFileC1 .noVerify = .ok (mkDexFile exFileC1) ∧
    (mkDexFile exFileC1).numStringIds = 1 ∧
    (mkDexFile exFileC1).getStringId 0 = .error (.dexIndexError 0 0) := by
  decide

/-- C2 (code_bug evaluation): in class data
`[1, 1, 0, 0, 5, 0, 7, 0]` (one static field `idx_diff 5`, one instance
field `idx_diff 7`), crossing the static→instance boundary flips the
section flag but does NOT reset the running index: the instance field
comes out with index 12 = 5 + 7 instead of the 7 the DEX encoding
prescribes; the direct→virtual method boundary behaves the same. -/
theorem c2_delta_index_reset :
    fieldsOfClassData [1, 1, 0, 0, 5, 0, 7, 0] =
      [⟨5, 0, true⟩, ⟨12, 0, false⟩] ∧
    methodsOfClassData [0, 0, 1, 1, 5, 0, 0, 7, 0, 0] =
      .ok [⟨5, 0, 0, false⟩, ⟨12, 0, 0, true⟩] ∧
    (12 : Nat) ≠ 7 := by
  decide

/-- C4 (code_bug evaluation): `check_size` rejects
`value_arg + 1 >= size_of(T)`, so the full-width 4-byte Int encoding
`[0x64, 1, 2, 3, 4, 0]` (`value_arg = 3`, type Int) fails with
`BadEncodedValueSize` even though enough input bytes remain, contradicting
the claim that every width in `1..=size_of(T)` is accepted; a 3-byte Int
still decodes. -/
theorem c4_primitive_width :
    evNew [0x64, 1, 2, 3, 4, 0] = .error (.badEncodedValueSize 4 3 4) ∧
    checkSize 4 3 4 4 1 [0x64, 1, 2, 3, 4, 0] =
      .error (.badEncodedValueSize 4 3 4) ∧
    evNew [0x44, 1, 2, 3, 0] = .ok (.int 66051, 4) :=
  ⟨rfl, rfl, rfl⟩

/-- C5 (code_bug evaluation): for the debug stream
`[0x0A, 0x00, 0x0A, 0x00]` (start line 10, no parameters, special opcode
`0x0A`, end), the special opcode adds `(DBG_LINE_BASE + adj % 15) as u8 =
0xFC` ZERO-extended — line becomes `10 + 252 = 262` — where the claim
(and the Android spec) require `-4 + adj % 15 = -4`, i.e. line 6. -/
theorem c5_special_opcode_line :
    decodePositionInfo [0x0A, 0x00, 0x0A, 0x00] =
      .ok [⟨0, 262, none, false, false⟩] ∧
    (10 + 252 : Nat) = 262 ∧ (262 : Nat) ≠ 6 := by
  decide

/-- C6 (code_bug evaluation): for `U = [0xE9]` (no surrogates at all),
`str_to_mutf8` prepends `mutf8_len + 1` zero bytes (`vec![0; n + 1]`
followed by pushes), so the strict round-trip yields `[0, 0, 0, 0xE9]`
instead of `U`. -/
theorem c6_mutf8_roundtrip :
    isSurr 0xE9 = false ∧
    strToMutf8 [0xE9] = [0, 0, 0, 0xC3, 0xA9, 0] ∧
    mutf8ToUtf16 (strToMutf8 [0xE9]) = [0, 0, 0, 0xE9] ∧
    mutf8ToUtf16 (strToMutf8 [0xE9]) ≠ [0xE9] := by
  decide

set_option maxRecDepth 40000 in
/-- C8 counterexample: the 3rc instruction `[0x0074, 0, 5]`
(invoke-virtual/range, count `A = 0`, first `C = 5`) satisfies
`first + count <= u16::MAX` yet `args_range` fails with
`InvalidArgRange`, refuting "fails exactly when first + count exceeds
u16::MAX". -/
theorem c8_counterexample :
    formatOf (opcodeByteOf [0x0074, 0, 5]) = .k3rc ∧
    vregC [0x0074, 0, 5] = .ok 5 ∧ vregA [0x0074, 0, 5] = .ok 0 ∧
    argsRange [0x0074, 0, 5] = .error (.invalidArgRange 0x74 5 0) ∧
    5 + 0 ≤ 65535 := by
  decide

/-- One pair check succeeds exactly on its `pairInv` invariant. -/
theorem checkValidOffsetAndSize_ok_iff (d : DexFileM) (offset size : Nat) :
    checkValidOffsetAndSize d offset size = .ok () ↔
      pairInv d.mmap.length offset size := by
  unfold checkValidOffsetAndSize pairInv
  split_ifs with h1 h2 h3 h4 h5
  · exact ⟨fun h => by simp at h, fun h => absurd h h2⟩
  · simp_all
  · exact ⟨fun h => by simp at h, fun h => ((by omega : False)).elim⟩
  · exact ⟨fun h => by simp at h, fun h => ((by omega : False)).elim⟩
  · exact ⟨fun h => by simp at h, fun h => ((by omega : False)).elim⟩
  · exact ⟨fun _ => by omega, fun _ => rfl⟩

/-- A `?`-sequence of unit checks succeeds exactly when each does. -/
theorem seqChecks_ok_iff (l : List (Except DexErr Unit)) :
    seqChecks l = .ok () ↔ ∀ c ∈ l, c = .ok () := by
  induction l with
  | nil => simp [seqChecks]
  | cons c rest ih =>
    cases c with
    | error e => simp [seqChecks]
    | ok u => cases u; simp [seqChecks, ih]

/-- The `All`-preset checksum arm succeeds exactly on checksum match. -/
theorem checksumCheck_all_ok_iff (d : DexFileM) :
    checksumCheck d .all = .ok () ↔ calculateChecksum d = d.header.checksum := by
  unfold checksumCheck
  split_ifs <;> simp_all

/-- `check_header` with preset `All` succeeds exactly on the conjunction
of invariants it tests. -/
theorem checkHeader_all_ok_iff (d : DexFileM) :
    checkHeader d .all = .ok () ↔ headerInvariantsAll d := by
  constructor
  · intro h
    unfold checkHeader at h
    split_ifs at h with h1 h2 h3 h4 h5 h6 h7
    rcases hc : checksumCheck d .all with e | u
    · rw [hc] at h; exact absurd h (by simp)
    · cases u
      rw [hc] at h
      have hcs := (checksumCheck_all_ok_iff d).mp hc
      have hall := (seqChecks_ok_iff _).mp h
      simp only [List.mem_cons, List.not_mem_nil, or_false, forall_eq_or_imp,
        forall_eq] at hall
      obtain ⟨p1, p2, p3, p4, p5, p6, p7, p8, p9⟩ := hall
      rw [checkValidOffsetAndSize_ok_iff] at p1 p2 p3 p4 p5 p6 p7 p8 p9
      exact ⟨by omega, by simpa using h2, by simpa using h3, by omega, by omega,
        by omega, by omega, hcs, p1, p2, p3, p4, p5, p6, p7, p8, p9⟩
  · rintro ⟨q1, q2, q3, q4, q5, q6, q7, q8, r1, r2, r3, r4, r5, r6, r7, r8, r9⟩
    unfold checkHeader
    rw [if_neg (by omega), if_neg (by simp [q2]), if_neg (by simp [q3]),
      if_neg (by omega), if_neg (by omega), if_neg (by omega), if_neg (by omega)]
    rw [(checksumCheck_all_ok_iff d).mpr q8]
    show seqChecks _ = .ok ()
    rw [seqChecks_ok_iff]
    intro c hc
    simp only [List.mem_cons, List.not_mem_nil, or_false] at hc
    rcases hc with h | h | h | h | h | h | h | h | h <;> subst h <;>
      rw [checkValidOffsetAndSize_ok_iff] <;> assumption

set_option maxRecDepth 40000 in
/-- C3 counterexample: `exFileC3` (116 bytes, correct checksum,
string-ids pair `offset 114, size 1`) passes verification with preset
`All`, although the claimed entry-width-scaled bound
`offset + size * 4 <= file_size` is violated (114 + 4 > 116): the
verifier compares the UNSCALED entry count against the remaining bytes. -/
theorem c3_counterexample :
    fromRawParts exFileC3 = .ok (mkDexFile exFileC3) ∧
    verifyDex (mkDexFile exFileC3) .all = .ok () ∧
    (mkDexFile exFileC3).header.string_ids_off +
        (mkDexFile exFileC3).header.string_ids_size * 4 >
      (mkDexFile exFileC3).header.file_size := by
  decide

/-- C3 (amended): verification with preset `All` fails iff one of the
checks the verifier makes is violated: container at least 112 bytes,
valid magic and version, `file_size` within `[expected header size,
container size]`, exact `header_size`, little-endian tag, Adler-32 of
`bytes[12..container_len]` equal to the header checksum, and for every
(offset, size) pair — the map pair taken as `(map_off, 4)` — either both
zero or `112 <= offset` and `offset + size <= container size` with
`size` UNSCALED (not multiplied by the entry byte width, and the offset
floor is the constant base-header size 112, not the version-dependent
`header_size`). -/
theorem c3_verifier_agreement (d : DexFileM) :
    verifyDex d .all = .ok () ↔ headerInvariantsAll d :=
  checkHeader_all_ok_iff d

/-- C10: `verify` with preset `ChecksumOnly` takes exactly the same path
as preset `All` — the two presets share one match arm — so the results
coincide on every input; and success of `All` implies the Adler-32
comparison was performed and passed.  No SHA-1 computation exists in the
verifier. -/
theorem c10_preset_equivalence (d : DexFileM) :
    verifyDex d .checksumOnly = verifyDex d .all ∧
    (verifyDex d .all = .ok () → calculateChecksum d = d.header.checksum) :=
  ⟨rfl, fun h => ((checkHeader_all_ok_iff d).mp h).2.2.2.2.2.2.2.1⟩

set_option maxRecDepth 40000 in
/-- C10 witness: the two presets agree on the concrete file `exFileC3`,
whose verification succeeds, and its stored checksum is the recomputed
Adler-32. -/
theorem c10_preset_equivalence_witness :
    verifyDex (mkDexFile exFileC3) .checksumOnly =
      verifyDex (mkDexFile exFileC3) .all ∧
    calculateChecksum (mkDexFile exFileC3) =
      (mkDexFile exFileC3).header.checksum := by
  have h := c10_preset_equivalence (mkDexFile exFileC3)
  exact ⟨h.1, h.2 (by decide)⟩

set_option maxRecDepth 40000 in
/-- Every entry of the size column is 1..5 or one of the markers
Complex (255, only `NOP`) and Custom (254, only `k32x`). -/
theorem codeSizeByOpcode_cases :
    ∀ b : Fin 256, 1 ≤ codeSizeByOpcode b.val (formatOf b.val) ∧
      (codeSizeByOpcode b.val (formatOf b.val) ≤ 5 ∨
        codeSizeByOpcode b.val (formatOf b.val) = 254 ∨
        codeSizeByOpcode b.val (formatOf b.val) = 255) := by
  decide

/-- A successfully computed complex (payload) size is at least one code
unit. -/
theorem sizeInCodeUnitsComplex_pos (l : List Nat) (v : Nat)
    (h : sizeInCodeUnitsComplex l = .ok v) : 1 ≤ v := by
  unfold sizeInCodeUnitsComplex at h
  repeat' split at h
  all_goals simp at h
  all_goals omega

/-- `size_in_code_units` never returns 0, whatever the slice holds. -/
theorem sizeInCodeUnits_pos (l : List Nat) : 1 ≤ sizeInCodeUnits l := by
  unfold sizeInCodeUnits
  have hop : opcodeByteOf l < 256 :=
    Nat.lt_succ_of_le (Nat.le_trans (Nat.and_le_right) (by norm_num))
  dsimp only
  split_ifs with h1 h2
  · rcases hcx : sizeInCodeUnitsComplex l with e | v
    · simp [hcx]
    · simpa [hcx] using sizeInCodeUnitsComplex_pos l v hcx
  · exact Nat.le_refl 1
  · exact (codeSizeByOpcode_cases ⟨opcodeByteOf l, hop⟩).1

/-- The iterator yields at most one instruction per unit of fuel. -/
theorem dexInstIterSteps_length (insns : List Nat) :
    ∀ fuel pc, (dexInstIterSteps insns pc fuel).length ≤ fuel := by
  intro fuel
  induction fuel with
  | zero => intro pc; simp [dexInstIterSteps]
  | succ f ih =>
    intro pc
    unfold dexInstIterSteps
    split_ifs with h
    · simpa using Nat.succ_le_succ (ih _)
    · simp

/-- Fuel above `insns.length - pc` does not change the iterator's
output: `pc` strictly increases every step, so the loop ends within
that many steps. -/
theorem dexInstIterSteps_fuel_congr (insns : List Nat) :
    ∀ f g pc, insns.length - pc ≤ f → insns.length - pc ≤ g →
      dexInstIterSteps insns pc f = dexInstIterSteps insns pc g := by
  intro f
  induction f with
  | zero =>
    intro g pc hf hg
    cases g with
    | zero => rfl
    | succ g =>
      rw [dexInstIterSteps, dexInstIterSteps]
      rw [if_neg (by omega)]
  | succ f ih =>
    intro g pc hf hg
    cases g with
    | zero =>
      rw [dexInstIterSteps, dexInstIterSteps]
      rw [if_neg (by omega)]
    | succ g =>
      rw [dexInstIterSteps, dexInstIterSteps]
      split_ifs with h
      · have hs := sizeInCodeUnits_pos (insns.drop pc)
        rw [ih g (pc + sizeInCodeUnits (insns.drop pc)) (by omega) (by omega)]
      · rfl

/-- C9: the decoded instruction at any first code unit occupies at least
one code unit; consequently the instruction iterator strictly advances
`pc` each step, yields at most `insns.len()` instructions, is insensitive
to extra fuel (it terminates within `insns.len()` steps), and yields
nothing on the empty stream. -/
theorem c9_iterator_termination (insns : List Nat) (c : Nat) (rest : List Nat) :
    1 ≤ sizeInCodeUnits (c :: rest) ∧
    dexInstructions [] = [] ∧
    (dexInstructions insns).length ≤ insns.length ∧
    (∀ pc, pc < insns.length → pc < pc + sizeInCodeUnits (insns.drop pc)) ∧
    (∀ fuel, insns.length ≤ fuel →
      dexInstIterSteps insns 0 fuel = dexInstructions insns) := by
  refine ⟨sizeInCodeUnits_pos (c :: rest), rfl,
    dexInstIterSteps_length insns insns.length 0, ?_, ?_⟩
  · intro pc _
    have := sizeInCodeUnits_pos (insns.drop pc)
    omega
  · intro fuel hfuel
    exact dexInstIterSteps_fuel_congr insns fuel insns.length 0 (by omega) (by omega)

/-- `as u16` is the identity on values already below `2^16`. -/
theorem toU16_ofNat (n : Nat) (h : n < 65536) : toU16 (n : Int) = n := by
  unfold toU16
  omega

/-- C8 (amended): for every 3rc/4rcc instruction with at least its three
code units present, `args_range` returns the inclusive register pair
`(first, first + count - 1)` when `count ≠ 0` and `first + count ≤
u16::MAX`, and fails with `InvalidArgRange` exactly when `count = 0` OR
`first + count` exceeds `u16::MAX` (where `first` is operand C, the
third code unit, and `count` is operand A, the high byte of the first
code unit). -/
theorem c8_args_range (inst : List Nat)
    (hfmt : formatOf (opcodeByteOf inst) = .k3rc ∨
      formatOf (opcodeByteOf inst) = .k4rcc)
    (hlen : 3 ≤ inst.length) :
    (((inst.getD 0 0 % 2 ^ 16) >>> 8) % 2 ^ 8 ≠ 0 ∧
        inst.getD 2 0 % 2 ^ 16 + ((inst.getD 0 0 % 2 ^ 16) >>> 8) % 2 ^ 8 ≤ 65535 →
      argsRange inst = .ok (inst.getD 2 0 % 2 ^ 16,
        inst.getD 2 0 % 2 ^ 16 + ((inst.getD 0 0 % 2 ^ 16) >>> 8) % 2 ^ 8 - 1)) ∧
    (((inst.getD 0 0 % 2 ^ 16) >>> 8) % 2 ^ 8 = 0 ∨
        inst.getD 2 0 % 2 ^ 16 + ((inst.getD 0 0 % 2 ^ 16) >>> 8) % 2 ^ 8 > 65535 →
      argsRange inst = .error (.invalidArgRange (opcodeByteOf inst)
        (inst.getD 2 0 % 2 ^ 16) (((inst.getD 0 0 % 2 ^ 16) >>> 8) % 2 ^ 8))) := by
  have hf2 : fetch16 inst 2 = .ok (inst.getD 2 0 % 2 ^ 16) := by
    unfold fetch16
    rw [if_neg (by omega)]
  have hf0 : fetch16 inst 0 = .ok (inst.getD 0 0 % 2 ^ 16) := by
    unfold fetch16
    rw [if_neg (by omega)]
  have hc : vregC inst = .ok ((inst.getD 2 0 % 2 ^ 16 : Nat) : Int) := by
    rcases hfmt with h | h <;> simp [vregC, h, hf2, Except.map]
  have ha : vregA inst =
      .ok ((((inst.getD 0 0 % 2 ^ 16) >>> 8) % 2 ^ 8 : Nat) : Int) := by
    rcases hfmt with h | h <;> simp [vregA, instAA, h, hf0, Except.map]
  have hcu : toU16 ((inst.getD 2 0 % 2 ^ 16 : Nat) : Int) = inst.getD 2 0 % 2 ^ 16 :=
    toU16_ofNat _ (Nat.mod_lt _ (by norm_num))
  have hau : toU16 ((((inst.getD 0 0 % 2 ^ 16) >>> 8) % 2 ^ 8 : Nat) : Int) =
      ((inst.getD 0 0 % 2 ^ 16) >>> 8) % 2 ^ 8 :=
    toU16_ofNat _ (Nat.lt_of_lt_of_le (Nat.mod_lt _ (by norm_num)) (by norm_num))
  constructor
  · intro hcond
    unfold argsRange
    rw [hc, ha]
    simp only [hcu, hau]
    rw [if_neg (by omega)]
  · intro hcond
    unfold argsRange
    rw [hc, ha]
    simp only [hcu, hau]
    rw [if_pos (by omega)]

/-- C8 witness: `invoke-virtual/range` with `count = 2`, `first = 5`
yields the range `[5, 6]`; with `count = 255`, `first = 65500` the sum
overflows u16 and the call fails. -/
theorem c8_args_range_witness :
    argsRange [0x0274, 0, 5] = .ok (5, 6) ∧
    argsRange [0xFF74, 0, 65500] =
      .error (.invalidArgRange 0x74 65500 255) := by
  constructor
  · have h := (c8_args_range [0x0274, 0, 5] (by decide) (by decide)).1 (by decide)
    simpa using h
  · have h := (c8_args_range [0xFF74, 0, 65500] (by decide) (by decide)).2 (by decide)
    simpa using h

/-- C9 witness: the property instantiated on the one-instruction stream
`[0x1230]`. -/
theorem c9_iterator_termination_witness :
    1 ≤ sizeInCodeUnits [0x1230] ∧
    (dexInstructions [0x1230]).length ≤ 1 ∧
    0 < 0 + sizeInCodeUnits (List.drop 0 [0x1230]) ∧
    dexInstIterSteps [0x1230] 0 7 = dexInstructions [0x1230] := by
  have h := c9_iterator_termination [0x1230] 0x1230 []
  exact ⟨h.1, h.2.2.1, h.2.2.2.1 0 (by decide), h.2.2.2.2 7 (by decide)⟩

/-- Decoding an encoding (followed by anything) recovers the value and
consumes exactly the encoding, provided the value fits the group budget
and the decoder has fuel for it. -/
theorem ulebDecodeCore_encodeCore (k : Nat) :
    ∀ (n : Nat) (t : List Nat) (fd : Nat), n < 2 ^ (7 * (k + 1)) → k + 1 ≤ fd →
      ulebDecodeCore (ulebEncodeCore (k + 1) n ++ t) fd =
        some (n, (ulebEncodeCore (k + 1) n).length) := by
  induction k with
  | zero =>
    intro n t fd hn hfd
    cases fd with
    | zero => omega
    | succ f =>
      unfold ulebEncodeCore
      rw [if_pos (by omega)]
      simp only [List.cons_append, List.nil_append, List.length_cons,
        List.length_nil]
      simp only [ulebDecodeCore]
      rw [if_pos (by omega)]
      simp only [Option.some.injEq, Prod.mk.injEq, and_true]
      omega
  | succ k ih =>
    intro n t fd hn hfd
    cases fd with
    | zero => omega
    | succ f =>
      by_cases hsmall : n < 2 ^ 7
      · unfold ulebEncodeCore
        rw [if_pos hsmall]
        simp only [List.cons_append, List.nil_append, List.length_cons,
          List.length_nil]
        simp only [ulebDecodeCore]
        rw [if_pos (by omega)]
        simp only [Option.some.injEq, Prod.mk.injEq, and_true]
        omega
      · rw [ulebEncodeCore]
        rw [if_neg hsmall]
        have hdiv : n / 2 ^ 7 < 2 ^ (7 * (k + 1)) := by
          rw [Nat.div_lt_iff_lt_mul (by norm_num)]
          calc n < 2 ^ (7 * (k + 1 + 1)) := hn
          _ = 2 ^ (7 * (k + 1)) * 2 ^ 7 := by ring
        have hrec := ih (n / 2 ^ 7) t f hdiv (by omega)
        simp only [List.cons_append, List.length_cons]
        simp only [ulebDecodeCore]
        rw [if_neg (by omega)]
        rw [hrec]
        simp only [Option.some.injEq, Prod.mk.injEq, and_true]
        omega

/-- The u32 decoder inverts the minimal encoding of any u32. -/
theorem ulebDecode_encode (n : Nat) (t : List Nat) (h : n < 2 ^ 32) :
    ulebDecode (ulebEncode n ++ t) = some (n, (ulebEncode n).length) := by
  unfold ulebDecode ulebEncode
  rw [ulebDecodeCore_encodeCore 4 n t 5 (by omega) (by omega)]
  simp
  omega

/-- Cursor form of the round trip. -/
theorem ulebDecodeOff_encode (data : List Nat) (pos n : Nat) (t : List Nat)
    (hdrop : data.drop pos = ulebEncode n ++ t) (h : n < 2 ^ 32) :
    ulebDecodeOff data pos = some (n, pos + (ulebEncode n).length) := by
  unfold ulebDecodeOff
  rw [hdrop, ulebDecode_encode n t h]

/-- `wrapI32` is the identity inside i32 range. -/
theorem wrapI32_eq_self (z : Int) (h1 : -(2 ^ 31) ≤ z) (h2 : z < 2 ^ 31) :
    wrapI32 z = z := by
  unfold wrapI32
  omega

/-- Advancing a cursor past a known prefix of the remaining bytes. -/
theorem dropPlus (l pre suf : List Nat) (off : Nat)
    (h : l.drop off = pre ++ suf) :
    l.drop (off + pre.length) = suf := by
  rw [← List.drop_drop, h, List.drop_left]

/-- `leb128()` under a cursor sitting on an encoded value. -/
theorem catchIterLeb_encode (s : CatchIterSt) (n : Nat) (t : List Nat)
    (hdrop : s.data.drop s.offset = ulebEncode n ++ t) (h : n < 2 ^ 32) :
    catchIterLeb s =
      .ok (n, { s with offset := s.offset + (ulebEncode n).length }) := by
  unfold catchIterLeb
  rw [ulebDecodeOff_encode s.data s.offset n t hdrop h]

/-- One fuelled step of the iterator when `next()` yields a handler. -/
theorem catchIterSteps_step (s s2 : CatchIterSt) (x : CatchHandlerData)
    (fuel : Nat) (h : catchIterNext s = .ok (some (x, s2))) :
    catchIterSteps s (fuel + 1) =
      (catchIterSteps s2 fuel).map fun l => x :: l := by
  simp [catchIterSteps, h]

/-- One fuelled step of the iterator when `next()` signals the end. -/
theorem catchIterSteps_done (s : CatchIterSt) (fuel : Nat)
    (h : catchIterNext s = .ok none) :
    catchIterSteps s (fuel + 1) = .ok [] := by
  simp [catchIterSteps, h]

/-- One `next()` on a state with positive `remaining` whose cursor sits
on two ULEB128s: a typed handler comes out and `remaining` drops. -/
theorem catchIterNext_typed (s : CatchIterSt) (m t a : Nat) (tail : List Nat)
    (hrem : s.remaining = ((m + 1 : Nat) : Int))
    (hdrop : s.data.drop s.offset = ulebEncode t ++ (ulebEncode a ++ tail))
    (ht : t < 2 ^ 32) (ha : a < 2 ^ 32) :
    catchIterNext s = .ok (some (⟨t % 2 ^ 16, a, false⟩,
      { s with offset := s.offset + (ulebEncode t).length + (ulebEncode a).length,
               remaining := s.remaining - 1 })) := by
  have h1 := catchIterLeb_encode s t (ulebEncode a ++ tail) hdrop ht
  have hdrop2 : s.data.drop (s.offset + (ulebEncode t).length) =
      ulebEncode a ++ tail := dropPlus s.data (ulebEncode t) _ s.offset hdrop
  have h2 := catchIterLeb_encode
    { s with offset := s.offset + (ulebEncode t).length } a tail hdrop2 ha
  unfold catchIterNext
  rw [if_neg (by rw [hrem]; omega), if_pos (by rw [hrem]; omega)]
  simp [h1, h2]

/-- One `next()` on an exhausted typed section with the catch-all flag
set: the synthetic `u16::MAX` handler comes out and the flag clears. -/
theorem catchIterNext_catchAll (s : CatchIterSt) (a : Nat) (tail : List Nat)
    (hrem1 : s.remaining ≠ -1) (hrem2 : ¬s.remaining > 0)
    (hflag : s.hasCatchAll = true)
    (hdrop : s.data.drop s.offset = ulebEncode a ++ tail) (ha : a < 2 ^ 32) :
    catchIterNext s = .ok (some (⟨65535, a, true⟩,
      { s with offset := s.offset + (ulebEncode a).length,
               hasCatchAll := false })) := by
  have h1 := catchIterLeb_encode s a tail hdrop ha
  unfold catchIterNext
  rw [if_neg hrem1, if_neg hrem2, if_pos hflag]
  simp [h1]

/-- `next()` terminates once `remaining` is spent and no catch-all is
pending. -/
theorem catchIterNext_end (s : CatchIterSt) (hrem1 : s.remaining ≠ -1)
    (hrem2 : ¬s.remaining > 0) (hflag : s.hasCatchAll = false) :
    catchIterNext s = .ok none := by
  unfold catchIterNext
  rw [if_neg hrem1, if_neg hrem2, if_neg (by simp [hflag])]

/-- Driving the iterator over a well-formed handler region holding
`pairs.length` typed handlers with the catch-all flag set: it yields the
typed handlers (type indices truncated to u16) and then the catch-all,
for any fuel of at least `pairs.length + 2` calls. -/
theorem catchIterSteps_typed (pairs : List (Nat × Nat)) :
    ∀ (s : CatchIterSt) (addr : Nat) (rest : List Nat) (fuel : Nat),
    s.remaining = ((pairs.length : Nat) : Int) →
    s.hasCatchAll = true →
    s.data.drop s.offset = encCatchPairs pairs ++ ulebEncode addr ++ rest →
    (∀ p ∈ pairs, p.1 < 2 ^ 32 ∧ p.2 < 2 ^ 32) →
    addr < 2 ^ 32 →
    pairs.length + 2 ≤ fuel →
    catchIterSteps s fuel =
      .ok (pairs.map (fun p => ⟨p.1 % 2 ^ 16, p.2, false⟩) ++
        [⟨65535, addr, true⟩]) := by
  induction pairs with
  | nil =>
    intro s addr rest fuel hrem hflag hdrop hb ha hfuel
    simp only [List.length_nil, Nat.cast_zero] at hrem
    simp only [List.length_nil] at hfuel
    simp only [encCatchPairs, List.flatMap_nil, List.nil_append] at hdrop
    match fuel, hfuel with
    | f + 1, hf =>
      rw [catchIterSteps_step s _ _ f
        (catchIterNext_catchAll s addr rest (by rw [hrem]; decide)
          (by rw [hrem]; decide) hflag hdrop ha)]
      match f, (show 1 ≤ f by omega) with
      | g + 1, _ =>
        rw [catchIterSteps_done
          { s with offset := s.offset + (ulebEncode addr).length,
                   hasCatchAll := false } g
          (catchIterNext_end _ (show s.remaining ≠ -1 by rw [hrem]; decide)
            (show ¬s.remaining > 0 by rw [hrem]; decide) rfl)]
        rfl
  | cons hd tl ih =>
    intro s addr rest fuel hrem hflag hdrop hb ha hfuel
    match fuel, hfuel with
    | f + 1, hf =>
      have hhd := hb hd (List.mem_cons_self hd tl)
      have hdrop1 : s.data.drop s.offset =
          ulebEncode hd.1 ++ (ulebEncode hd.2 ++
            (encCatchPairs tl ++ ulebEncode addr ++ rest)) := by
        rw [hdrop]
        simp [encCatchPairs, List.append_assoc]
      have hd2 : s.data.drop (s.offset + (ulebEncode hd.1).length +
          (ulebEncode hd.2).length) =
          encCatchPairs tl ++ ulebEncode addr ++ rest :=
        dropPlus s.data (ulebEncode hd.2) _ _
          (dropPlus s.data (ulebEncode hd.1) _ s.offset hdrop1)
      rw [catchIterSteps_step s _ _ f
        (catchIterNext_typed s tl.length hd.1 hd.2 _
          (by rw [hrem]; simp) hdrop1 hhd.1 hhd.2)]
      rw [ih { s with
          offset := s.offset + (ulebEncode hd.1).length + (ulebEncode hd.2).length,
          remaining := s.remaining - 1 } addr rest f
        (show s.remaining - 1 = ((tl.length : Nat) : Int) by
          rw [hrem, List.length_cons]; omega)
        hflag hd2
        (fun p hp => hb p (List.mem_cons_of_mem hd hp))
        ha
        (by simp only [List.length_cons] at hf; omega)]
      rfl

/-- Opening the handler list reduced to the fuelled iterator run. -/
theorem catchHandlers_ok (data : List Nat) (s : CatchIterSt)
    (h : catchIterNew data = .ok s) :
    catchHandlers data = catchIterSteps s (s.remaining.toNat + 2) := by
  simp [catchHandlers, h]

/-- `encCatchPairs` on `n` copies of `(0, 0)` is `2 n` zero bytes. -/
theorem encCatchPairs_replicate (n : Nat) :
    encCatchPairs (List.replicate n (0, 0)) = List.replicate (2 * n) 0 := by
  induction n with
  | zero => rfl
  | succ k ih =>
    rw [List.replicate_succ]
    show (0 : Nat) :: 0 :: encCatchPairs (List.replicate k (0, 0)) =
      List.replicate (2 * (k + 1)) 0
    rw [ih, show 2 * (k + 1) = 2 + 2 * k from by ring, List.replicate_add]
    rfl

/-- C7 (corrected): a handler list whose leading SLEB128 decodes to the
non-positive count `-pairs.length`, with `pairs.length < 2^31` and the
typed handlers and the catch-all address well-formedly encoded after
it, yields exactly the typed handlers (type indices truncated to u16)
followed by one catch-all handler with `type_idx = u16::MAX`, and then
terminates. The source negates the count with wrapping `i32`
semantics, so the boundary count `-2^31` is excluded (see the
counterexample). -/
theorem c7_catch_all_encoding (pairs : List (Nat × Nat)) (addr : Nat)
    (pre rest data : List Nat)
    (hdata : data = pre ++ encCatchPairs pairs ++ ulebEncode addr ++ rest)
    (hdec : slebDecode data = some (-((pairs.length : Nat) : Int), pre.length))
    (hlen : ((pairs.length : Nat) : Int) < 2 ^ 31)
    (hb : ∀ p ∈ pairs, p.1 < 2 ^ 32 ∧ p.2 < 2 ^ 32)
    (ha : addr < 2 ^ 32) :
    catchHandlers data =
      .ok (pairs.map (fun p => ⟨p.1 % 2 ^ 16, p.2, false⟩) ++
        [⟨65535, addr, true⟩]) := by
  have hnew : catchIterNew data =
      .ok (CatchIterSt.mk data pre.length true ((pairs.length : Nat) : Int)) := by
    simp only [catchIterNew, hdec]
    rw [if_pos (by omega : -((pairs.length : Nat) : Int) ≤ 0), neg_neg,
      wrapI32_eq_self _ (by omega) hlen,
      decide_eq_true (show -((pairs.length : Nat) : Int) ≤ 0 by omega)]
  rw [catchHandlers_ok data _ hnew]
  exact catchIterSteps_typed pairs _ addr rest _ rfl rfl
    (show data.drop pre.length = encCatchPairs pairs ++ ulebEncode addr ++ rest by
      rw [hdata, List.append_assoc, List.append_assoc, List.drop_left,
        ← List.append_assoc])
    hb ha (by simp)

/-- C7 witness: the concrete handler list `[0x7F, 5, 0, 7]` — SLEB128
count `-1`, one typed handler `(5, 0)`, catch-all at address `7`. -/
theorem c7_catch_all_encoding_witness :
    catchHandlers [0x7F, 5, 0, 7] =
      .ok ([((5 : Nat), (0 : Nat))].map (fun p => ⟨p.1 % 2 ^ 16, p.2, false⟩) ++
        [⟨65535, 7, true⟩]) :=
  c7_catch_all_encoding [(5, 0)] 7 [0x7F] [] [0x7F, 5, 0, 7]
    (by decide) (by decide) (by decide) (by decide) (by decide)

/-- C7 counterexample to the claim as stated: `exDataC7` is the
well-formed encoding of `2^31` typed handlers and a catch-all at
address `7`, and its leading SLEB128 decodes to the non-positive count
`-2^31`; yet the iterator emits no typed handler at all, because
`-(-2^31)` wraps back to `-2^31` in `i32`, leaving only a catch-all
whose address `0` is read from the first typed handler's bytes —
not `2^31` typed handlers followed by the catch-all. -/
theorem c7_counterexample :
    exDataC7 = [0x80, 0x80, 0x80, 0x80, 0x78] ++
      encCatchPairs (List.replicate (2 ^ 31) (0, 0)) ++ ulebEncode 7 ++ [] ∧
    slebDecode exDataC7 =
      some (-(((List.replicate (2 ^ 31) ((0 : Nat), (0 : Nat))).length : Nat) : Int),
        ([(0x80 : Nat), 0x80, 0x80, 0x80, 0x78]).length) ∧
    catchHandlers exDataC7 = .ok [⟨65535, 0, true⟩] ∧
    catchHandlers exDataC7 ≠
      .ok ((List.replicate (2 ^ 31) ((0 : Nat), (0 : Nat))).map
          (fun p => ⟨p.1 % 2 ^ 16, p.2, false⟩) ++ [⟨65535, 7, true⟩]) := by
  have h3 : catchHandlers exDataC7 = .ok [⟨65535, 0, true⟩] := by decide
  refine ⟨?_, ?_, h3, ?_⟩
  · rw [encCatchPairs_replicate, show 2 * 2 ^ 31 = 2 ^ 32 from by norm_num,
      show ulebEncode 7 = [7] from rfl, List.append_nil]
    rfl
  · rw [List.length_replicate]
    decide
  · rw [h3]
    intro h
    injection h with h'
    have hl := congrArg List.length h'
    rw [List.length_append, List.length_map, List.length_replicate,
      show ([(⟨65535, 0, true⟩ : CatchHandlerData)]).length = 1 from rfl] at hl
    omega


end Dexrs
